import Mathlib

/-!
# Verification of the ETL/versioning core of `scripts/mcp_ingest_state.py`

This file gives a shallow embedding, in Lean 4, of the data model and the
operations of the ingest/snapshot/diff/prune/verify engine implemented in
`scripts/mcp_ingest_state.py`, and proves (or refutes) the frozen claims
about it.

Modelling conventions:
* Python JSON values are modelled by the inductive type `Json` below
  (numbers as `Int`; floating point values do not occur in the claims).
* Python dicts are modelled as association lists in insertion order;
  `dictSet` mirrors `d[k] = v` (update in place, else append), `alookup`
  mirrors `d.get(k)` (keys are unique in every dict the program builds).
* Calls into the `json` standard library (`json.loads`) are modelled by an
  abstract parameter `parse : String → Option Json`: `none` models a
  `json.JSONDecodeError` (the callers catch every exception), `some o`
  models a successful parse.  `json.dumps` is modelled by the concrete
  serializer `dumps` below.
* SQLite tables are modelled as Lean lists of row structures, with the
  `ON CONFLICT` upserts modelled as key-matching replacement.  Table
  existence checks (`_table_exists`) are modelled by boolean flags on the
  database state.
-/

/-- A JSON value, the universe of Python values the engine manipulates.
Mirrors the result of `json.loads`: `null`/`bool`/`int`/`str`/`list`/`dict`
(floats do not occur in any claim and are not modelled). -/
inductive Json where
  | null : Json
  | bool : Bool → Json
  | num : Int → Json
  | str : String → Json
  | arr : List Json → Json
  | obj : List (String × Json) → Json

mutual

/-- Decidable equality on `Json` (the automatic derivation does not handle
the nested `List` occurrences). -/
def jsonDecEq : (a b : Json) → Decidable (a = b)
  | Json.null, Json.null => isTrue rfl
  | Json.bool a, Json.bool b =>
      match decEq a b with
      | isTrue h => isTrue (h ▸ rfl)
      | isFalse h => isFalse (fun hh => h (Json.bool.inj hh))
  | Json.num a, Json.num b =>
      match decEq a b with
      | isTrue h => isTrue (h ▸ rfl)
      | isFalse h => isFalse (fun hh => h (Json.num.inj hh))
  | Json.str a, Json.str b =>
      match decEq a b with
      | isTrue h => isTrue (h ▸ rfl)
      | isFalse h => isFalse (fun hh => h (Json.str.inj hh))
  | Json.arr xs, Json.arr ys =>
      match jsonListDecEq xs ys with
      | isTrue h => isTrue (h ▸ rfl)
      | isFalse h => isFalse (fun hh => h (Json.arr.inj hh))
  | Json.obj fs, Json.obj gs =>
      match jsonFieldsDecEq fs gs with
      | isTrue h => isTrue (h ▸ rfl)
      | isFalse h => isFalse (fun hh => h (Json.obj.inj hh))
  | Json.null, Json.bool _ => isFalse (fun h => Json.noConfusion h)
  | Json.null, Json.num _ => isFalse (fun h => Json.noConfusion h)
  | Json.null, Json.str _ => isFalse (fun h => Json.noConfusion h)
  | Json.null, Json.arr _ => isFalse (fun h => Json.noConfusion h)
  | Json.null, Json.obj _ => isFalse (fun h => Json.noConfusion h)
  | Json.bool _, Json.null => isFalse (fun h => Json.noConfusion h)
  | Json.bool _, Json.num _ => isFalse (fun h => Json.noConfusion h)
  | Json.bool _, Json.str _ => isFalse (fun h => Json.noConfusion h)
  | Json.bool _, Json.arr _ => isFalse (fun h => Json.noConfusion h)
  | Json.bool _, Json.obj _ => isFalse (fun h => Json.noConfusion h)
  | Json.num _, Json.null => isFalse (fun h => Json.noConfusion h)
  | Json.num _, Json.bool _ => isFalse (fun h => Json.noConfusion h)
  | Json.num _, Json.str _ => isFalse (fun h => Json.noConfusion h)
  | Json.num _, Json.arr _ => isFalse (fun h => Json.noConfusion h)
  | Json.num _, Json.obj _ => isFalse (fun h => Json.noConfusion h)
  | Json.str _, Json.null => isFalse (fun h => Json.noConfusion h)
  | Json.str _, Json.bool _ => isFalse (fun h => Json.noConfusion h)
  | Json.str _, Json.num _ => isFalse (fun h => Json.noConfusion h)
  | Json.str _, Json.arr _ => isFalse (fun h => Json.noConfusion h)
  | Json.str _, Json.obj _ => isFalse (fun h => Json.noConfusion h)
  | Json.arr _, Json.null => isFalse (fun h => Json.noConfusion h)
  | Json.arr _, Json.bool _ => isFalse (fun h => Json.noConfusion h)
  | Json.arr _, Json.num _ => isFalse (fun h => Json.noConfusion h)
  | Json.arr _, Json.str _ => isFalse (fun h => Json.noConfusion h)
  | Json.arr _, Json.obj _ => isFalse (fun h => Json.noConfusion h)
  | Json.obj _, Json.null => isFalse (fun h => Json.noConfusion h)
  | Json.obj _, Json.bool _ => isFalse (fun h => Json.noConfusion h)
  | Json.obj _, Json.num _ => isFalse (fun h => Json.noConfusion h)
  | Json.obj _, Json.str _ => isFalse (fun h => Json.noConfusion h)
  | Json.obj _, Json.arr _ => isFalse (fun h => Json.noConfusion h)

/-- Decidable equality on lists of `Json`. -/
def jsonListDecEq : (xs ys : List Json) → Decidable (xs = ys)
  | [], [] => isTrue rfl
  | [], _ :: _ => isFalse (fun h => List.noConfusion h)
  | _ :: _, [] => isFalse (fun h => List.noConfusion h)
  | x :: xs, y :: ys =>
      match jsonDecEq x y with
      | isFalse h => isFalse (fun hh => h (List.cons.inj hh).1)
      | isTrue h1 =>
          match jsonListDecEq xs ys with
          | isTrue h2 => isTrue (by rw [h1, h2])
          | isFalse h2 => isFalse (fun hh => h2 (List.cons.inj hh).2)

/-- Decidable equality on `Json` object field lists. -/
def jsonFieldsDecEq : (fs gs : List (String × Json)) → Decidable (fs = gs)
  | [], [] => isTrue rfl
  | [], _ :: _ => isFalse (fun h => List.noConfusion h)
  | _ :: _, [] => isFalse (fun h => List.noConfusion h)
  | (k1, v1) :: fs, (k2, v2) :: gs =>
      match decEq k1 k2 with
      | isFalse h => isFalse (fun hh => h (congrArg Prod.fst (List.cons.inj hh).1))
      | isTrue hk =>
          match jsonDecEq v1 v2 with
          | isFalse h => isFalse (fun hh => h (congrArg Prod.snd (List.cons.inj hh).1))
          | isTrue hv =>
              match jsonFieldsDecEq fs gs with
              | isTrue h2 => isTrue (by rw [hk, hv, h2])
              | isFalse h2 => isFalse (fun hh => h2 (List.cons.inj hh).2)

end

instance : DecidableEq Json := jsonDecEq

/-- An object's fields, i.e. a Python dict in insertion order. -/
abbrev Obj := List (String × Json)

/-- `d.get(k)` on a Python dict: first (unique) binding of `k`. -/
def alookup {κ α : Type} [DecidableEq κ] : List (κ × α) → κ → Option α
  | [], _ => none
  | (k2, v) :: rest, k => if k2 = k then some v else alookup rest k

/-- `d[k] = v` on a Python dict: replace the binding in place, else append. -/
def dictSet {κ α : Type} [DecidableEq κ] : List (κ × α) → κ → α → List (κ × α)
  | [], k, v => [(k, v)]
  | (k2, v2) :: rest, k, v =>
      if k2 = k then (k2, v) :: rest else (k2, v2) :: dictSet rest k v

/-- Python truthiness (`bool(x)`) on the modelled values: `None`, `False`,
`0`, `""`, `[]`, `{}` are falsy, everything else truthy. -/
def jTruthy : Json → Bool
  | Json.null => false
  | Json.bool b => b
  | Json.num n => n != 0
  | Json.str s => s != ""
  | Json.arr xs => !xs.isEmpty
  | Json.obj fs => !fs.isEmpty

/-- `x or y` on Python values (used by `neighbor_id or address or "-"`). -/
def pyOrJ (a b : Json) : Json := if jTruthy a then a else b

/-- The Python `type()` tag of a decoded JSON value; `type(b_obj) is not
type(n_obj)` in `_compute_summary_diff` compares these tags. -/
inductive JTag where
  | null | bool | num | str | arr | obj
deriving DecidableEq, Repr

/-- Type tag of a value (Python `type(x)`). -/
def jtag : Json → JTag
  | Json.null => JTag.null
  | Json.bool _ => JTag.bool
  | Json.num _ => JTag.num
  | Json.str _ => JTag.str
  | Json.arr _ => JTag.arr
  | Json.obj _ => JTag.obj

-- ---------------------------------------------------------------------------
-- `json.dumps` and the `_normalize`/`_equal` helpers of `_compute_summary_diff`
-- ---------------------------------------------------------------------------

/-- Ordering of object fields by key, as used by `sorted(obj.keys())` and
`json.dumps(..., sort_keys=True)`. -/
def fieldLe (a b : String × Json) : Prop := a.1 ≤ b.1

instance : DecidableRel fieldLe := fun a b => inferInstanceAs (Decidable (a.1 ≤ b.1))

instance : IsTotal (String × Json) fieldLe := ⟨fun a b => le_total a.1 b.1⟩

instance : IsTrans (String × Json) fieldLe := ⟨fun _ _ _ h1 h2 => le_trans h1 h2⟩

/-- `sorted` on a list of strings (Python sorts strings lexicographically by
code point, as does the `String` order here). -/
def sortStrs (l : List String) : List String := l.insertionSort (· ≤ ·)

/-- Sort object fields by key: the dict comprehension over `sorted(obj.keys())`
in `_normalize`, and `sort_keys=True` in `json.dumps`. -/
def sortFields (fs : List (String × Json)) : List (String × Json) :=
  fs.insertionSort fieldLe

/-- Escape one character for the JSON string serializer (quote and backslash;
other escapes do not affect any claim: `dumps` output is only compared and
sorted, never re-parsed). -/
def escapeChar (c : Char) : String :=
  if c = Char.ofNat 34 then "\\\""
  else if c = Char.ofNat 92 then "\\\\"
  else String.singleton c

/-- JSON string literal serialization. -/
def jsonQuote (s : String) : String :=
  "\"" ++ String.join (s.data.map escapeChar) ++ "\""

/-- `", ".join` with the default `json.dumps` separators. -/
def joinComma (l : List String) : String := String.intercalate ", " l

mutual

/-- `json.dumps(x, ensure_ascii=False, sort_keys=True)` as applied in
`_compute_summary_diff._normalize` to values that `_normalize` has already
key-sorted recursively (so `sort_keys=True` re-sorts an already sorted dict
and is the identity on the field order; the serializer therefore emits
fields in their list order). -/
def dumps : Json → String
  | Json.null => "null"
  | Json.bool b => if b then "true" else "false"
  | Json.num n => toString n
  | Json.str s => jsonQuote s
  | Json.arr xs => "[" ++ joinComma (dumpsList xs) ++ "]"
  | Json.obj fs => "\x7b" ++ joinComma (dumpsFields fs) ++ "\x7d"

/-- Serialize the elements of an array. -/
def dumpsList : List Json → List String
  | [] => []
  | x :: xs => dumps x :: dumpsList xs

/-- Serialize the fields of an object. -/
def dumpsFields : List (String × Json) → List String
  | [] => []
  | (k, v) :: fs => (jsonQuote k ++ ": " ++ dumps v) :: dumpsFields fs

end

mutual

/-- `_normalize` of `_compute_summary_diff` (lines 470-478): sort dict keys
recursively (Python builds `{k: _normalize(obj[k]) for k in sorted(obj.keys())}`;
since normalization does not change keys, normalizing the values and then
sorting by key, as here, builds the same field list); with `set_unordered`,
arrays become the sorted list of canonical serializations of their
normalized elements, otherwise arrays are normalized element-wise. -/
def pyNormalize (u : Bool) : Json → Json
  | Json.null => Json.null
  | Json.bool b => Json.bool b
  | Json.num n => Json.num n
  | Json.str s => Json.str s
  | Json.arr xs =>
      if u then Json.arr ((sortStrs (pyNormalizeDump u xs)).map Json.str)
      else Json.arr (pyNormalizeList u xs)
  | Json.obj fs => Json.obj (sortFields (pyNormalizeFields u fs))

/-- Element-wise normalization of an array (ordered mode). -/
def pyNormalizeList (u : Bool) : List Json → List Json
  | [] => []
  | x :: xs => pyNormalize u x :: pyNormalizeList u xs

/-- `json.dumps(_normalize(x), ensure_ascii=False, sort_keys=True)` for each
array element (unordered mode). -/
def pyNormalizeDump (u : Bool) : List Json → List String
  | [] => []
  | x :: xs => dumps (pyNormalize u x) :: pyNormalizeDump u xs

/-- Normalization of each field value of an object. -/
def pyNormalizeFields (u : Bool) : List (String × Json) → List (String × Json)
  | [] => []
  | (k, v) :: fs => (k, pyNormalize u v) :: pyNormalizeFields u fs

end

/-- `_equal` of `_compute_summary_diff`: structural equality after
normalization. -/
def jEqual (u : Bool) (a b : Json) : Bool :=
  decide (pyNormalize u a = pyNormalize u b)

/-- `_safe_json_load`: `json.loads` with the string itself as fallback on a
parse error (the `loads` parameter models the `json` library: `none` is a
raised `JSONDecodeError`). -/
def safeLoad (loads : String → Option Json) (s : String) : Json :=
  match loads s with
  | some o => o
  | none => Json.str s

/-- The both-present comparison of `_compute_summary_diff` (lines 527-543):
a Python-type mismatch of the decoded values is a `type` change, a failed
normalized comparison is a `changed` change, and equal values produce no
row (`none`). -/
def diffValue (loads : String → Option Json) (u : Bool) (b n : String) : Option String :=
  if jtag (safeLoad loads b) ≠ jtag (safeLoad loads n) then some "type"
  else if jEqual u (safeLoad loads b) (safeLoad loads n) then none
  else some "changed"

/-- The character `{` (written via its code point). -/
def lbrace : Char := Char.ofNat 123

/-- The character `}` (written via its code point). -/
def rbrace : Char := Char.ofNat 125

/-- The brace-scanning loop of `_iter_embedded_json` (lines 171-187 of
`scripts/mcp_ingest_state.py`): scan character by character tracking brace
depth; when the depth returns to zero, try to parse the bracketed slice
`text[start:i+1]`; parse failures are silently dropped.  `all` is the full
character list (for slicing), the second list argument is the remaining
input, then the current index, the depth (`stack`), the recorded start
position and the accumulated parses. -/
def scanBraces (parse : String → Option Json) (all : List Char) :
    List Char → Nat → Nat → Option Nat → List Json → List Json
  | [], _, _, _, acc => acc
  | c :: rest, i, stack, start, acc =>
    if c = lbrace then
      scanBraces parse all rest (i + 1) (stack + 1)
        (if stack = 0 then some i else start) acc
    else if c = rbrace then
      if stack > 0 then
        if stack - 1 = 0 then
          match start with
          | some s =>
            match parse (String.mk ((all.drop s).take (i + 1 - s))) with
            | some o => scanBraces parse all rest (i + 1) (stack - 1) none (acc ++ [o])
            | none => scanBraces parse all rest (i + 1) (stack - 1) none acc
          | none => scanBraces parse all rest (i + 1) (stack - 1) none acc
        else scanBraces parse all rest (i + 1) (stack - 1) start acc
      else scanBraces parse all rest (i + 1) stack start acc
    else scanBraces parse all rest (i + 1) stack start acc

/-- `text.splitlines()` (the engine only feeds the pieces to `json.loads`,
so the model splits on `\n`; the extra trailing empty piece a final newline
produces never parses and is dropped either way). -/
def splitLines (text : String) : List String :=
  text.split (fun c => c = Char.ofNat 10)

/-- `_iter_embedded_json` (lines 168-193): empty text yields nothing;
otherwise every balanced top-level brace block that parses is yielded, then
every line that parses as standalone JSON is yielded.  Parse failures are
swallowed (`try/except: pass` around `json.loads`), modelled by
`parse : String → Option Json` returning `none`. -/
def iterEmbeddedJson (parse : String → Option Json) (text : String) : List Json :=
  if text = "" then []
  else
    scanBraces parse text.data text.data 0 0 none []
      ++ (splitLines text).filterMap parse

-- ---------------------------------------------------------------------------
-- Claim C2: the harvester is total and returns nothing on unparseable input
-- ---------------------------------------------------------------------------

theorem scanBraces_out_of_none (parse : String → Option Json)
    (hp : ∀ s, parse s = none) (all : List Char) :
    ∀ (rest : List Char) (i stack : Nat) (start : Option Nat) (acc : List Json),
      scanBraces parse all rest i stack start acc = acc := by
  intro rest
  induction rest with
  | nil => intro i stack start acc; simp [scanBraces]
  | cons c tl ih =>
    intro i stack start acc
    simp only [scanBraces]
    split
    · exact ih _ _ _ _
    · split
      · split
        · split
          · split
            · split
              · rename_i hmatch
                rw [hp] at hmatch
                cases hmatch
              · exact ih _ _ _ _
            · exact ih _ _ _ _
          · exact ih _ _ _ _
        · exact ih _ _ _ _
      · exact ih _ _ _ _

/-- C2: for every input text, the JSON harvester `_iter_embedded_json` is a
total function (it is defined by structural recursion over the text, which
models "terminates without raising an exception": every `json.loads` call
is wrapped in `try/except`), and when no substring of the input parses as
JSON (`parse` returns `none` everywhere, i.e. the input contains no
parseable JSON) it returns the empty sequence of objects. -/
theorem iterEmbeddedJson_no_json_empty (parse : String → Option Json)
    (text : String) (hp : ∀ s, parse s = none) :
    iterEmbeddedJson parse text = [] := by
  unfold iterEmbeddedJson
  split
  · rfl
  · rw [scanBraces_out_of_none parse hp]
    simp [hp]

/-- Witness for C2 at a concrete input: log noise with an unbalanced brace
and a parser that rejects everything (no parseable JSON anywhere). -/
theorem iterEmbeddedJson_no_json_empty_witness :
    iterEmbeddedJson (fun _ => none) "ERROR: task failed \x7b not json\nplain line" = [] :=
  iterEmbeddedJson_no_json_empty (fun _ => none)
    "ERROR: task failed \x7b not json\nplain line" (fun _ => rfl)

-- ---------------------------------------------------------------------------
-- Alias resolver, host resolution, numeric coercion (lines 234-258, 554-559,
-- 668-710)
-- ---------------------------------------------------------------------------

/-- Alias table for one record kind: canonical field name to ordered list of
acceptable source keys. -/
abbrev AliasSect := List (String × List String)

/-- Alias tables of `_load_aliases` keyed by record kind. -/
abbrev Aliases := List (String × AliasSect)

/-- Built-in `bgp_peer` aliases of `_load_aliases`. -/
def defaultBgpAliases : AliasSect :=
  [("peer_ip", ["peer_ip", "peerIp", "neighbor", "id"]),
   ("state", ["state", "peerState", "sessionState"]),
   ("remoteAs", ["remoteAs", "asn", "remote_as"]),
   ("pfxRcd", ["pfxRcd", "prefixes_received", "prefixReceived"])]

/-- Built-in `ospf_neighbor` aliases of `_load_aliases`. -/
def defaultOspfAliases : AliasSect :=
  [("neighbor_id", ["neighbor_id", "id", "routerId"]),
   ("iface", ["iface", "interface", "ifname"]),
   ("state", ["state", "adjState"]),
   ("dead_time_raw", ["dead_time_raw", "deadTime"]),
   ("address", ["address", "neighborAddress"])]

/-- `_load_aliases` with no external file: the built-in map. -/
def defaultAliases : Aliases :=
  [("bgp_peer", defaultBgpAliases), ("ospf_neighbor", defaultOspfAliases)]

/-- `aliases.get(sect, {})`. -/
def aliasSect (a : Aliases) (sect : String) : AliasSect :=
  match alookup a sect with
  | some ap => ap
  | none => []

/-- `aliases.get(canon, [canon])` inside `_get_with_aliases`. -/
def aliasKeyList (ap : AliasSect) (canon : String) : List String :=
  match alookup ap canon with
  | some ks => ks
  | none => [canon]

/-- The key loop of `_get_with_aliases`: first key present in `src` whose
value is neither `None` nor `""` wins, else the default. -/
def getWithAliasesGo (src : Obj) : List String → Json → Json
  | [], d => d
  | k :: ks, d =>
      match alookup src k with
      | some v =>
          if v = Json.null ∨ v = Json.str "" then getWithAliasesGo src ks d else v
      | none => getWithAliasesGo src ks d

/-- `_get_with_aliases(src, aliases, canon, default)` (lines 554-559). -/
def getWithAliases (src : Obj) (ap : AliasSect) (canon : String) (d : Json) : Json :=
  getWithAliasesGo src (aliasKeyList ap canon) d

/-- Top-level host keys tried by `_pick_host` (line 236). -/
def hostKeys : List String :=
  ["host", "device", "router", "hostname", "node", "target", "inventory_hostname"]

/-- Meta container keys tried by `_pick_host` (line 240). -/
def metaContainerKeys : List String := ["meta", "_meta", "context", "details"]

/-- Host keys tried inside a meta container (line 243). -/
def metaHostKeys : List String :=
  ["host", "hostname", "device", "router", "node", "inventory_hostname"]

/-- Python `str.strip()`: drop leading and trailing whitespace (modelled on
the ASCII whitespace of `Char.isWhitespace`; the exotic Unicode whitespace
Python additionally strips occurs in no claim). -/
def stripStr (s : String) : String :=
  String.mk (((s.data.dropWhile Char.isWhitespace).reverse.dropWhile
    Char.isWhitespace).reverse)

/-- `isinstance(v, str) and v.strip()` for one key: the stripped value when
it is a non-blank string. -/
def strHit (o : Obj) (k : String) : Option String :=
  match alookup o k with
  | some (Json.str s) => if stripStr s = "" then none else some (stripStr s)
  | _ => none

/-- First non-blank string value among the given keys. -/
def firstStrHit (o : Obj) : List String → Option String
  | [] => none
  | k :: ks =>
      match strHit o k with
      | some s => some s
      | none => firstStrHit o ks

/-- The meta-container loop of `_pick_host`: for each container key bound to
a dict, try the nested host keys; on no hit fall through to the next
container. -/
def metaHit (o : Obj) : List String → Option String
  | [] => none
  | mk :: mks =>
      match alookup o mk with
      | some (Json.obj m) =>
          (match firstStrHit m metaHostKeys with
           | some s => some s
           | none => metaHit o mks)
      | _ => metaHit o mks

/-- The `ansible` fallback of `_pick_host`:
`ans.get("inventory_hostname") or ans.get("host")`, then the non-blank
string check. -/
def ansibleHit (o : Obj) : Option String :=
  match alookup o "ansible" with
  | some (Json.obj a) =>
      (match
        (match alookup a "inventory_hostname" with
         | some x => if jTruthy x then some x else alookup a "host"
         | none => alookup a "host") with
       | some (Json.str s) => if stripStr s = "" then none else some (stripStr s)
       | _ => none)
  | _ => none

/-- `_pick_host(obj, "unknown")` (lines 235-252). -/
def pickHost (o : Obj) : String :=
  match firstStrHit o hostKeys with
  | some s => s
  | none =>
      match metaHit o metaContainerKeys with
      | some s => s
      | none =>
          match ansibleHit o with
          | some s => s
          | none => "unknown"

/-- Python `int(str)` on a stripped decimal literal with optional sign
(digit-group underscores are not modelled; they occur in no input of the
claims). -/
def parseIntStr (s : String) : Option Int :=
  match (stripStr s).data with
  | [] => none
  | c :: rest =>
      let signed : Int × List Char :=
        if c = '-' then (-1, rest)
        else if c = '+' then (1, rest)
        else (1, c :: rest)
      if signed.2 = [] then none
      else if signed.2.all Char.isDigit then
        some (signed.1 * Int.ofNat
          (signed.2.foldl (fun n ch => n * 10 + (ch.toNat - 48)) 0))
      else none

/-- `_as_int(x, default)` (lines 254-258): Python `int(x)`, with the default
on any exception.  `int` succeeds on ints, bools and integer-literal
strings and raises on everything else. -/
def asInt (x : Json) (d : Int) : Int :=
  match x with
  | Json.num n => n
  | Json.bool b => if b then 1 else 0
  | Json.str s =>
      (match parseIntStr s with
       | some n => n
       | none => d)
  | _ => d

/-- A BGP peer's state counts as established exactly on this case-sensitive
synonym set (lines 576 and 603 and 616). -/
def isEstablished (state : Json) : Bool :=
  decide (state = Json.str "Established" ∨ state = Json.str "OK"
    ∨ state = Json.str "established")

-- ---------------------------------------------------------------------------
-- The BGP domain parser `parse_bgp_objects` (lines 561-620)
-- ---------------------------------------------------------------------------

/-- A `routing_bgp_peer` row tuple
`(host, peer_ip, peer_as, state, uptime_sec, prefixes_received, collected_at, source)`. -/
structure BgpRow where
  host : String
  peerIp : Json
  peerAs : Int
  state : Json
  uptimeSec : Int
  prefixesReceived : Int
  collectedAt : String
  source : String
deriving DecidableEq

/-- A `routing_summary` row tuple
`(host, last_collected_at, peers_total, peers_established, ospf_neighbors, status, last_error)`. -/
structure HostSummary where
  host : String
  lastCollectedAt : String
  peersTotal : Int
  peersEstablished : Int
  ospfNeighbors : Int
  status : String
  lastError : String
deriving DecidableEq

/-- Fields of a value expected to be a dict.  (On a non-dict value the
Python code raises inside `_get_with_aliases` and the whole ingest aborts;
that path creates no rows and is outside every claim.) -/
def jsonFields : Json → Obj
  | Json.obj fs => fs
  | _ => []

/-- `any(k in o for k in ks)`. -/
def hasAnyKey (o : Obj) (ks : List String) : Bool :=
  ks.any (fun k => (alookup o k).isSome)

/-- The flat peer-like shape test of `parse_bgp_objects` (line 569). -/
def bgpFlatShape (o : Obj) : Bool :=
  hasAnyKey o ["peer_ip", "peerIp", "neighbor"]
    && hasAnyKey o ["state", "peerState", "sessionState"]

/-- Shape detection for the peers container (lines 580-592): inside a `bgp`
dict, a `peers` dict, else a `neighbors` dict, else a `peers` list;
otherwise a `peers` dict inside an `ipv4Unicast` dict. -/
def bgpPeersObj (o : Obj) : Option (Obj ⊕ List Json) :=
  let fromBgp :=
    match alookup o "bgp" with
    | some (Json.obj bgp) =>
        (match alookup bgp "peers" with
         | some (Json.obj d) => some (Sum.inl d)
         | _ =>
             match alookup bgp "neighbors" with
             | some (Json.obj d) => some (Sum.inl d)
             | _ =>
                 match alookup bgp "peers" with
                 | some (Json.arr l) => some (Sum.inr l)
                 | _ => none)
    | _ => none
  match fromBgp with
  | some x => some x
  | none =>
      match alookup o "ipv4Unicast" with
      | some (Json.obj ipv4) =>
          (match alookup ipv4 "peers" with
           | some (Json.obj d) => some (Sum.inl d)
           | _ => none)
      | _ => none

/-- The dict-shaped peers loop (lines 596-605): one row per entry, the peer
IP taken from the dict key; returns `(rows, total, established)`. -/
def bgpPeersFromDict (ap : AliasSect) (host collectedAt : String) :
    List (String × Json) → List BgpRow × Nat × Nat
  | [] => ([], 0, 0)
  | (ip, p) :: rest =>
      let state := getWithAliases (jsonFields p) ap "state" (Json.str "-")
      let ras := asInt (getWithAliases (jsonFields p) ap "remoteAs" (Json.num 0)) 0
      let pfx := asInt (getWithAliases (jsonFields p) ap "pfxRcd" (Json.num 0)) 0
      let rec_ := bgpPeersFromDict ap host collectedAt rest
      (⟨host, Json.str ip, ras, state, 0, pfx, collectedAt, "ansible-mcp"⟩ :: rec_.1,
       rec_.2.1 + 1, rec_.2.2 + (if isEstablished state then 1 else 0))

/-- The list-shaped peers loop (lines 606-618): non-dict entries are
skipped, the peer IP is resolved through the aliases. -/
def bgpPeersFromList (ap : AliasSect) (host collectedAt : String) :
    List Json → List BgpRow × Nat × Nat
  | [] => ([], 0, 0)
  | p :: rest =>
      match p with
      | Json.obj pf =>
          let ip := getWithAliases pf ap "peer_ip" (Json.str "-")
          let state := getWithAliases pf ap "state" (Json.str "-")
          let ras := asInt (getWithAliases pf ap "remoteAs" (Json.num 0)) 0
          let pfx := asInt (getWithAliases pf ap "pfxRcd" (Json.num 0)) 0
          let rec_ := bgpPeersFromList ap host collectedAt rest
          (⟨host, ip, ras, state, 0, pfx, collectedAt, "ansible-mcp"⟩ :: rec_.1,
           rec_.2.1 + 1, rec_.2.2 + (if isEstablished state then 1 else 0))
      | _ => bgpPeersFromList ap host collectedAt rest

/-- One iteration of the `parse_bgp_objects` object loop, threading the
accumulated rows and the per-host summary dict. -/
def parseBgpOne (aliases : Aliases) (collectedAt : String) (strict : Bool)
    (st : List BgpRow × List (String × HostSummary)) (o : Obj) :
    List BgpRow × List (String × HostSummary) :=
  let host := pickHost o
  if strict && (host == "unknown") then st
  else if bgpFlatShape o then
    let ap := aliasSect aliases "bgp_peer"
    let ip := getWithAliases o ap "peer_ip" (Json.str "-")
    let state := getWithAliases o ap "state" (Json.str "-")
    let ras := asInt (getWithAliases o ap "remoteAs" (Json.num 0)) 0
    let pfx := asInt (getWithAliases o ap "pfxRcd" (Json.num 0)) 0
    let est : Int := if isEstablished state then 1 else 0
    (st.1 ++ [⟨host, ip, ras, state, 0, pfx, collectedAt, "ansible-mcp"⟩],
     dictSet st.2 host ⟨host, collectedAt, 1, est, 0, "ok", ""⟩)
  else
    match bgpPeersObj o with
    | none =>
        if strict then st
        else (st.1, dictSet st.2 host ⟨host, collectedAt, 0, 0, 0, "ok", ""⟩)
    | some (Sum.inl peers) =>
        let ap := aliasSect aliases "bgp_peer"
        let res := bgpPeersFromDict ap host collectedAt peers
        (st.1 ++ res.1,
         dictSet st.2 host
           ⟨host, collectedAt, Int.ofNat res.2.1, Int.ofNat res.2.2, 0, "ok", ""⟩)
    | some (Sum.inr peers) =>
        let ap := aliasSect aliases "bgp_peer"
        let res := bgpPeersFromList ap host collectedAt peers
        (st.1 ++ res.1,
         dictSet st.2 host
           ⟨host, collectedAt, Int.ofNat res.2.1, Int.ofNat res.2.2, 0, "ok", ""⟩)

/-- `parse_bgp_objects(objs, collected_at, strict, aliases)` (lines 561-620). -/
def parseBgpObjects (objs : List Obj) (collectedAt : String) (strict : Bool)
    (aliases : Aliases) : List BgpRow × List (String × HostSummary) :=
  objs.foldl (parseBgpOne aliases collectedAt strict) ([], [])

-- ---------------------------------------------------------------------------
-- Claim C8: Scenario A and the established-state classification
-- ---------------------------------------------------------------------------

/-- The Scenario A input object
`{"host":"r1","bgp":{"peers":{"10.0.0.1":{"state":"Established","remoteAs":65001,"pfxRcd":42}}}}`. -/
def scenarioAObj : Obj :=
  [("host", Json.str "r1"),
   ("bgp", Json.obj [("peers", Json.obj
     [("10.0.0.1", Json.obj
       [("state", Json.str "Established"),
        ("remoteAs", Json.num 65001),
        ("pfxRcd", Json.num 42)])])])]

/-- C8: parsing the Scenario A object yields exactly one row
`(r1, 10.0.0.1, 65001, Established, prefixes_received 42)` and the summary
`(r1, peers_total = 1, peers_established = 1)`; and a peer counts as
established exactly when its state is case-sensitively one of
`Established`, `OK`, `established`. -/
theorem parseBgp_scenarioA :
    (parseBgpObjects [scenarioAObj] "2025-10-07T01:20:05Z" false defaultAliases =
      ([⟨"r1", Json.str "10.0.0.1", 65001, Json.str "Established", 0, 42,
          "2025-10-07T01:20:05Z", "ansible-mcp"⟩],
       [("r1", ⟨"r1", "2025-10-07T01:20:05Z", 1, 1, 0, "ok", ""⟩)]))
    ∧ ∀ state : Json, isEstablished state = true ↔
        (state = Json.str "Established" ∨ state = Json.str "OK"
          ∨ state = Json.str "established") := by
  constructor
  · decide
  · intro state
    simp [isEstablished]

-- ---------------------------------------------------------------------------
-- The SQLite store: rows, database state, `write_sqlite` (lines 260-348)
-- ---------------------------------------------------------------------------

/-- A `routing_ospf_neighbor` row tuple
`(host, neighbor_id, iface, state, dead_time_raw, address, collected_at)`. -/
structure OspfRow where
  host : String
  neighborId : Json
  iface : Json
  state : Json
  deadTimeRaw : Json
  address : Json
  collectedAt : String
deriving DecidableEq

/-- A `raw_state` row `(version, host, kind, payload_json, created_at)`. -/
structure RawRow where
  version : String
  host : String
  kind : String
  payloadJson : String
  createdAt : String
deriving DecidableEq

/-- A `normalized_state` row `(version, host, kind, k, v, created_at)`; `k`
is whatever Python value was bound (`NULL` is `Json.null`). -/
structure NormRow where
  version : String
  host : String
  kind : String
  k : Json
  v : String
  createdAt : String
deriving DecidableEq

/-- A `schema_meta` row. -/
structure SchemaMetaRow where
  version : String
  schemaSha1 : String
  appliedAt : String
  appliedBy : String
  schemaPath : String
deriving DecidableEq

/-- A `summary_diff` row
`(base_version, new_version, host, kind, k, change, before, after, computed_at)`. -/
structure DiffRow where
  baseVersion : String
  newVersion : String
  host : String
  kind : String
  k : Json
  change : String
  before : Option String
  after : Option String
  computedAt : String
deriving DecidableEq

/-- The SQLite database state: the tables as row lists, plus existence
flags modelling `_table_exists` for the tables the engine probes. -/
structure DB where
  hasRawState : Bool
  hasNormalizedState : Bool
  hasSummaryDiff : Bool
  hasSchemaMeta : Bool
  hasRoutingSummary : Bool
  rawState : List RawRow
  normalizedState : List NormRow
  summaryDiff : List DiffRow
  schemaMeta : List SchemaMetaRow
  routingBgpPeer : List BgpRow
  routingOspfNeighbor : List OspfRow
  routingSummary : List HostSummary
deriving DecidableEq

/-- A fresh database: no tables, no rows. -/
def emptyDB : DB := ⟨false, false, false, false, false, [], [], [], [], [], [], []⟩

/-- `UPSERT_BGP`: insert keyed on `(host, peer_ip, collected_at)`; on
conflict every other column is overwritten, so the matching row becomes the
new tuple. -/
def upsertBgp (t : List BgpRow) (r : BgpRow) : List BgpRow :=
  if t.any (fun x => decide (x.host = r.host ∧ x.peerIp = r.peerIp
      ∧ x.collectedAt = r.collectedAt)) then
    t.map (fun x => if x.host = r.host ∧ x.peerIp = r.peerIp
      ∧ x.collectedAt = r.collectedAt then r else x)
  else t ++ [r]

/-- `UPSERT_OSPF`: insert keyed on `(host, neighbor_id, collected_at)`. -/
def upsertOspf (t : List OspfRow) (r : OspfRow) : List OspfRow :=
  if t.any (fun x => decide (x.host = r.host ∧ x.neighborId = r.neighborId
      ∧ x.collectedAt = r.collectedAt)) then
    t.map (fun x => if x.host = r.host ∧ x.neighborId = r.neighborId
      ∧ x.collectedAt = r.collectedAt then r else x)
  else t ++ [r]

/-- `UPSERT_SUMMARY`: insert keyed on `host`. -/
def upsertSummary (t : List HostSummary) (r : HostSummary) : List HostSummary :=
  if t.any (fun x => x.host == r.host) then
    t.map (fun x => if x.host = r.host then r else x)
  else t ++ [r]

/-- `write_sqlite` (lines 315-348) with `dry_run` handling: ensure the
schema (which creates `routing_summary` if absent), delete every
`routing_summary` row with `host='unknown'`, drop the `'unknown'` key from
the summaries dict if present, then upsert the BGP rows, the OSPF rows and
the remaining summaries.  The peer/neighbor row lists are written as given,
without any host filtering. -/
def writeSqlite (db : DB) (bgpRows : List BgpRow) (ospfRows : List OspfRow)
    (summaries : List (String × HostSummary)) (dryRun : Bool) : DB :=
  if dryRun then db
  else
    let db1 := { db with hasRoutingSummary := true }
    let db2 := { db1 with
      routingSummary := db1.routingSummary.filter (fun s => !(s.host == "unknown")) }
    let sums :=
      if summaries.any (fun p => p.1 == "unknown") then
        summaries.filter (fun p => !(p.1 == "unknown"))
      else summaries
    let db3 := { db2 with routingBgpPeer := bgpRows.foldl upsertBgp db2.routingBgpPeer }
    let db4 := { db3 with
      routingOspfNeighbor := ospfRows.foldl upsertOspf db3.routingOspfNeighbor }
    { db4 with routingSummary := sums.foldl (fun t p => upsertSummary t p.2) db4.routingSummary }

-- ---------------------------------------------------------------------------
-- Claim C1: the `'unknown'` sentinel after `write_sqlite`
-- ---------------------------------------------------------------------------

/-- A harvested BGP object carrying no recognizable host key: `_pick_host`
falls back to the `"unknown"` sentinel. -/
def c1HostlessObj : Obj :=
  [("bgp", Json.obj [("peers", Json.obj
    [("10.0.0.1", Json.obj [("state", Json.str "Established")])])])]

/-- C1 counterexample: in non-strict mode, ingesting a hostless BGP object
through `parse_bgp_objects` and `write_sqlite` leaves a row with
`host='unknown'` in the current-state table `routing_bgp_peer`: only the
summary table is cleaned of the sentinel, so the claim as stated is false
for the current-state tables. -/
theorem writeSqlite_unknown_peer_counterexample :
    ((writeSqlite emptyDB
        (parseBgpObjects [c1HostlessObj] "2025-10-07T01:20:05Z" false defaultAliases).1
        []
        (parseBgpObjects [c1HostlessObj] "2025-10-07T01:20:05Z" false defaultAliases).2
        false).routingBgpPeer.any (fun r => r.host == "unknown")) = true := by
  decide

theorem upsertSummary_no_unknown (t : List HostSummary) (r : HostSummary)
    (ht : ∀ s ∈ t, s.host ≠ "unknown") (hr : r.host ≠ "unknown") :
    ∀ s ∈ upsertSummary t r, s.host ≠ "unknown" := by
  unfold upsertSummary
  split
  · intro s hs
    rcases List.mem_map.mp hs with ⟨x, hx, hxe⟩
    by_cases hkey : x.host = r.host
    · rw [if_pos hkey] at hxe; exact hxe ▸ hr
    · rw [if_neg hkey] at hxe; exact hxe ▸ ht x hx
  · intro s hs
    rcases List.mem_append.mp hs with h | h
    · exact ht s h
    · rcases List.mem_singleton.mp h with rfl; exact hr

theorem foldl_upsertSummary_no_unknown
    (sums : List (String × HostSummary)) :
    ∀ (t : List HostSummary), (∀ s ∈ t, s.host ≠ "unknown") →
      (∀ p ∈ sums, (p : String × HostSummary).2.host ≠ "unknown") →
      ∀ s ∈ sums.foldl (fun t p => upsertSummary t p.2) t, s.host ≠ "unknown" := by
  induction sums with
  | nil => intro t ht _ s hs; exact ht s hs
  | cons p rest ih =>
    intro t ht hsum s hs
    exact ih (upsertSummary t p.2)
      (upsertSummary_no_unknown t p.2 ht (hsum p (List.mem_cons_self p rest)))
      (fun q hq => hsum q (List.mem_cons_of_mem p hq)) s hs

/-- C1 amended: `write_sqlite` guarantees the sentinel invariant for the
summary table only.  For every database state and input rows, provided each
summary tuple is keyed by its own host (as the parsers always produce), no
row with `host='unknown'` remains in `routing_summary` after a non-dry-run
write: the pre-existing sentinel row is deleted and sentinel summaries are
filtered out.  (The current-state peer/neighbor tables receive their rows
unfiltered; the counterexample above shows an `'unknown'` row surviving
there in non-strict mode.) -/
theorem writeSqlite_summary_no_unknown (db : DB) (bgpRows : List BgpRow)
    (ospfRows : List OspfRow) (summaries : List (String × HostSummary))
    (hcoh : ∀ p ∈ summaries, (p : String × HostSummary).2.host = p.1) :
    ((writeSqlite db bgpRows ospfRows summaries false).routingSummary.all
      (fun s => !(s.host == "unknown"))) = true := by
  rw [List.all_eq_true]
  intro s hs
  simp only [writeSqlite, if_neg (Bool.false_ne_true)] at hs
  have hbase : ∀ x ∈ db.routingSummary.filter (fun s => !(s.host == "unknown")),
      x.host ≠ "unknown" := by
    intro x hx
    have := (List.mem_filter.mp hx).2
    simpa using this
  have hsums : ∀ p ∈ (if summaries.any (fun p => p.1 == "unknown") then
      summaries.filter (fun p => !(p.1 == "unknown")) else summaries),
      (p : String × HostSummary).2.host ≠ "unknown" := by
    split
    · intro p hp
      have hmem := List.mem_filter.mp hp
      have hkey : p.1 ≠ "unknown" := by simpa using hmem.2
      rw [hcoh p hmem.1]; exact hkey
    · rename_i hany
      intro p hp
      rw [hcoh p hp]
      intro hcontra
      have : summaries.any (fun p => p.1 == "unknown") = true :=
        List.any_eq_true.mpr ⟨p, hp, by simp [hcontra]⟩
      simp_all
  have := foldl_upsertSummary_no_unknown _ _ hbase hsums s hs
  simpa using this

/-- Witness database for the amended C1: a pre-existing sentinel summary
row. -/
def c1WitnessDB : DB :=
  ⟨false, false, false, false, true, [], [], [], [], [], [],
   [⟨"unknown", "t0", 0, 0, 0, "degraded", ""⟩]⟩

/-- Witness summaries for the amended C1: a real host and a sentinel one. -/
def c1WitnessSums : List (String × HostSummary) :=
  [("r1", ⟨"r1", "t1", 1, 1, 0, "ok", ""⟩),
   ("unknown", ⟨"unknown", "t1", 0, 0, 0, "ok", ""⟩)]

/-- Witness for the amended C1 at a concrete input. -/
theorem writeSqlite_summary_no_unknown_witness :
    ((writeSqlite c1WitnessDB [] [] c1WitnessSums false).routingSummary.all
      (fun s => !(s.host == "unknown"))) = true :=
  writeSqlite_summary_no_unknown c1WitnessDB [] [] c1WitnessSums (by decide)

-- ---------------------------------------------------------------------------
-- Claim C10: the OSPF natural key in `_snapshot_raw_and_normalized`
-- ---------------------------------------------------------------------------

/-- `key = neighbor_id or address or "-"` (line 409). -/
def ospfSnapshotKey (neighborId address : Json) : Json :=
  pyOrJ neighborId (pyOrJ address (Json.str "-"))

/-- The JSON value stored for an OSPF neighbor in `normalized_state`
(lines 410-411). -/
def ospfValueJson (r : OspfRow) : Json :=
  Json.obj [("neighbor_id", r.neighborId), ("iface", r.iface),
    ("state", r.state), ("dead_time_raw", r.deadTimeRaw), ("address", r.address)]

/-- The OSPF part of `_snapshot_raw_and_normalized` (lines 407-416): one
`normalized_state` row per parsed OSPF row, keyed by `ospfSnapshotKey`. -/
def snapshotOspfNorm (version collectedAt : String) (rows : List OspfRow) :
    List NormRow :=
  rows.map (fun r =>
    ⟨version, r.host, "ospf_neighbor", ospfSnapshotKey r.neighborId r.address,
     dumps (ospfValueJson r), collectedAt⟩)

/-- The verifier's empty-key test `k IS NULL OR k=''` on a stored key. -/
def badKeyB (k : Json) : Bool := (k == Json.null) || (k == Json.str "")

theorem ospfSnapshotKey_truthy (nid addr : Json) :
    jTruthy (ospfSnapshotKey nid addr) = true := by
  have hdash : jTruthy (Json.str "-") = true := rfl
  rcases Bool.eq_false_or_eq_true (jTruthy nid) with h1 | h1
  · simp [ospfSnapshotKey, pyOrJ, h1]
  · rcases Bool.eq_false_or_eq_true (jTruthy addr) with h2 | h2
    · simp [ospfSnapshotKey, pyOrJ, h1, h2]
    · simp [ospfSnapshotKey, pyOrJ, h1, h2, hdash]

theorem jTruthy_not_badKey (k : Json) (h : jTruthy k = true) :
    badKeyB k = false := by
  cases k <;> simp_all [jTruthy, badKeyB]

/-- C10: the natural key stored for an OSPF row is never empty: every
`normalized_state` row produced by the OSPF snapshot loop has a key that
the verifier's `k IS NULL OR k=''` check cannot flag; the key is the
neighbor id when truthy, else the address when truthy, else the literal
`"-"`. -/
theorem snapshotOspf_key_never_bad (rows : List OspfRow) (version collectedAt : String) :
    (∀ r ∈ snapshotOspfNorm version collectedAt rows, badKeyB r.k = false)
    ∧ (∀ nid addr : Json, jTruthy nid = true → ospfSnapshotKey nid addr = nid)
    ∧ (∀ nid addr : Json, jTruthy nid = false → jTruthy addr = true →
        ospfSnapshotKey nid addr = addr)
    ∧ (∀ nid addr : Json, jTruthy nid = false → jTruthy addr = false →
        ospfSnapshotKey nid addr = Json.str "-") := by
  refine ⟨?_, ?_, ?_, ?_⟩
  · intro r hr
    rcases List.mem_map.mp hr with ⟨x, _, hxe⟩
    subst hxe
    exact jTruthy_not_badKey _ (ospfSnapshotKey_truthy _ _)
  · intro nid addr h; simp [ospfSnapshotKey, pyOrJ, h]
  · intro nid addr h1 h2; simp [ospfSnapshotKey, pyOrJ, h1, h2]
  · intro nid addr h1 h2; simp [ospfSnapshotKey, pyOrJ, h1, h2]

/-- Witness for C10 at concrete inputs: both candidate fields empty forces
the `"-"` fallback, and a produced snapshot row is never flagged. -/
theorem snapshotOspf_key_never_bad_witness :
    ospfSnapshotKey (Json.str "") Json.null = Json.str "-" :=
  (snapshotOspf_key_never_bad [] "v1" "t1").2.2.2 (Json.str "") Json.null rfl rfl

-- ---------------------------------------------------------------------------
-- The diff engine `_compute_summary_diff` (lines 452-551)
-- ---------------------------------------------------------------------------

/-- The `(host, kind, k)` natural key of a normalized fact. -/
abbrev NKey := String × String × Json

/-- The `WHERE` clause of `load_map`: match the version and the optional
host and kind filters. -/
def normFilter (version : String) (hostF kindF : Option String) (r : NormRow) : Bool :=
  (r.version == version)
    && (match hostF with
        | some h => r.host == h
        | none => true)
    && (match kindF with
        | some kd => r.kind == kd
        | none => true)

/-- `load_map(version)` (lines 490-500): the filtered `normalized_state`
rows as a dict keyed by `(host, kind, k)` (later rows overwrite earlier
ones, as in the Python dict comprehension). -/
def loadMap (db : DB) (version : String) (hostF kindF : Option String) :
    List (NKey × String) :=
  (db.normalizedState.filter (normFilter version hostF kindF)).foldl
    (fun m r => dictSet m (r.host, r.kind, r.k) r.v) []

/-- Build one `summary_diff` row for the pair under comparison. -/
def mkDiffRow (bv nv ts : String) (key : NKey) (change : String)
    (before after : Option String) : DiffRow :=
  ⟨bv, nv, key.1, key.2.1, key.2.2, change, before, after, ts⟩

/-- The loop state of the key loop of `_compute_summary_diff`: inserted
rows and the three counters. -/
structure DiffAcc where
  rows : List DiffRow
  added : Nat
  removed : Nat
  changed : Nat
deriving DecidableEq

/-- One iteration of the key loop (lines 511-543): insert an `added`,
`removed`, `type` or `changed` row (or nothing) and bump the matching
counter; a `type` row bumps the `changed` counter. -/
def diffStep (loads : String → Option Json) (u : Bool) (bv nv ts : String)
    (baseM newM : List (NKey × String)) (acc : DiffAcc) (key : NKey) : DiffAcc :=
  match alookup baseM key, alookup newM key with
  | none, some n =>
      ⟨acc.rows ++ [mkDiffRow bv nv ts key "added" none (some n)],
       acc.added + 1, acc.removed, acc.changed⟩
  | some b, none =>
      ⟨acc.rows ++ [mkDiffRow bv nv ts key "removed" (some b) none],
       acc.added, acc.removed + 1, acc.changed⟩
  | some b, some n =>
      (match diffValue loads u b n with
       | some c =>
           ⟨acc.rows ++ [mkDiffRow bv nv ts key c (some b) (some n)],
            acc.added, acc.removed, acc.changed + 1⟩
       | none => acc)
  | none, none => acc

/-- `set(base.keys()) | set(new.keys())` as a duplicate-free list: the base
keys followed by the new-only keys.  (Python iterates the set in an
unspecified order; every property proved below is order-independent.) -/
def unionKeys (baseM newM : List (NKey × String)) : List NKey :=
  baseM.map Prod.fst
    ++ (newM.map Prod.fst).filter (fun k => !(decide (k ∈ baseM.map Prod.fst)))

/-- The `{added, removed, changed, total}` dict returned by
`_compute_summary_diff`: it has exactly these four entries (there is no
separate `type` counter). -/
structure DiffCounts where
  added : Nat
  removed : Nat
  changed : Nat
  total : Nat
deriving DecidableEq

/-- The `summary_diff` rows surviving the delete-before-insert
`DELETE FROM summary_diff WHERE base_version=? AND new_version=?`
(line 506). -/
def keptDiffRows (db : DB) (bv nv : String) : List DiffRow :=
  db.summaryDiff.filter (fun r => !(r.baseVersion == bv && r.newVersion == nv))

/-- The final state of the key loop of `_compute_summary_diff` over the
union of the two key sets. -/
def diffAccOf (loads : String → Option Json) (db : DB) (bv nv ts : String)
    (hostF kindF : Option String) (u : Bool) : DiffAcc :=
  (unionKeys (loadMap db bv hostF kindF) (loadMap db nv hostF kindF)).foldl
    (diffStep loads u bv nv ts (loadMap db bv hostF kindF)
      (loadMap db nv hostF kindF)) ⟨[], 0, 0, 0⟩

/-- The rows inserted into `summary_diff` by one diff run. -/
def diffRowsOf (loads : String → Option Json) (db : DB) (bv nv ts : String)
    (hostF kindF : Option String) (u : Bool) : List DiffRow :=
  (diffAccOf loads db bv nv ts hostF kindF u).rows

/-- `_compute_summary_diff` (lines 452-551): if either snapshot table is
missing, do nothing and report zero counts; otherwise load the two maps,
delete all prior `summary_diff` rows of the `(base_version, new_version)`
pair, run the key loop over the union of the key sets, and report
`total = added + removed + changed`. -/
def computeSummaryDiff (loads : String → Option Json) (db : DB)
    (bv nv ts : String) (hostF kindF : Option String) (u : Bool) :
    DB × DiffCounts :=
  if db.hasNormalizedState && db.hasSummaryDiff then
    let acc := diffAccOf loads db bv nv ts hostF kindF u
    ({ db with summaryDiff := keptDiffRows db bv nv ++ acc.rows },
     ⟨acc.added, acc.removed, acc.changed, acc.added + acc.removed + acc.changed⟩)
  else (db, ⟨0, 0, 0, 0⟩)

/-- The specification's per-key classification (spec §4.6): this definition
follows the spec's words — absent-in-base/present-in-new is `added`,
present-in-base/absent-in-new is `removed`, present-in-both with different
decoded Python types is `type`, structurally unequal after normalization is
`changed`, and structurally equal produces no row.  The refinement theorem
below compares the implementation's key loop against it. -/
def specDiffEntry (loads : String → Option Json) (u : Bool) (bv nv ts : String)
    (baseM newM : List (NKey × String)) (key : NKey) : Option DiffRow :=
  match alookup baseM key, alookup newM key with
  | none, none => none
  | none, some n => some (mkDiffRow bv nv ts key "added" none (some n))
  | some b, none => some (mkDiffRow bv nv ts key "removed" (some b) none)
  | some b, some n =>
      if jtag (safeLoad loads b) ≠ jtag (safeLoad loads n) then
        some (mkDiffRow bv nv ts key "type" (some b) (some n))
      else if pyNormalize u (safeLoad loads b) = pyNormalize u (safeLoad loads n) then
        none
      else some (mkDiffRow bv nv ts key "changed" (some b) (some n))

theorem diffStep_rows_spec (loads : String → Option Json) (u : Bool)
    (bv nv ts : String) (baseM newM : List (NKey × String)) (acc : DiffAcc)
    (key : NKey) :
    (diffStep loads u bv nv ts baseM newM acc key).rows
      = acc.rows ++ (specDiffEntry loads u bv nv ts baseM newM key).toList := by
  unfold diffStep specDiffEntry
  rcases hb : alookup baseM key with _ | b <;> rcases hn : alookup newM key with _ | n
  · simp
  · simp
  · simp
  · unfold diffValue jEqual
    by_cases htag : jtag (safeLoad loads b) ≠ jtag (safeLoad loads n)
    · simp [htag]
    · by_cases heq : pyNormalize u (safeLoad loads b) = pyNormalize u (safeLoad loads n)
      · simp [htag, heq]
      · simp [htag, heq]

theorem foldl_diffStep_rows (loads : String → Option Json) (u : Bool)
    (bv nv ts : String) (baseM newM : List (NKey × String)) :
    ∀ (keys : List NKey) (acc : DiffAcc),
      ((keys.foldl (diffStep loads u bv nv ts baseM newM) acc).rows)
        = acc.rows ++ keys.filterMap (specDiffEntry loads u bv nv ts baseM newM) := by
  intro keys
  induction keys with
  | nil => intro acc; simp
  | cons key rest ih =>
    intro acc
    have hstep := diffStep_rows_spec loads u bv nv ts baseM newM acc key
    rw [List.foldl_cons, ih, hstep, List.filterMap_cons]
    rcases specDiffEntry loads u bv nv ts baseM newM key with _ | row <;> simp

theorem alookup_isSome_iff {κ α : Type} [DecidableEq κ] (m : List (κ × α)) (k : κ) :
    (alookup m k).isSome = true ↔ k ∈ m.map Prod.fst := by
  induction m with
  | nil => simp [alookup]
  | cons p rest ih =>
    obtain ⟨k2, v2⟩ := p
    by_cases h : k2 = k
    · subst h; simp [alookup]
    · simp [alookup, h, ih, Ne.symm h]

theorem dictSet_keys {κ α : Type} [DecidableEq κ] (m : List (κ × α)) (k : κ) (v : α) :
    (dictSet m k v).map Prod.fst =
      if k ∈ m.map Prod.fst then m.map Prod.fst else m.map Prod.fst ++ [k] := by
  induction m with
  | nil => simp [dictSet]
  | cons p rest ih =>
    obtain ⟨k2, v2⟩ := p
    by_cases h : k2 = k
    · subst h; simp [dictSet]
    · simp only [dictSet, if_neg h, List.map_cons]
      rw [ih]
      by_cases hmem : k ∈ rest.map Prod.fst
      · rw [if_pos hmem, if_pos (by simp [hmem])]
      · rw [if_neg hmem, if_neg (by simp [hmem, Ne.symm h]), List.cons_append]

theorem dictSet_keys_nodup {κ α : Type} [DecidableEq κ] (m : List (κ × α))
    (k : κ) (v : α) (h : (m.map Prod.fst).Nodup) :
    ((dictSet m k v).map Prod.fst).Nodup := by
  rw [dictSet_keys]
  by_cases hmem : k ∈ m.map Prod.fst
  · rwa [if_pos hmem]
  · rw [if_neg hmem]
    simp [List.nodup_append, h, hmem]

theorem foldl_dictSet_keys_nodup (rows : List NormRow) :
    ∀ (m : List (NKey × String)), (m.map Prod.fst).Nodup →
      ((rows.foldl (fun m r => dictSet m (r.host, r.kind, r.k) r.v) m).map
        Prod.fst).Nodup := by
  induction rows with
  | nil => intro m hm; exact hm
  | cons r rest ih =>
    intro m hm
    exact ih _ (dictSet_keys_nodup m _ r.v hm)

theorem loadMap_keys_nodup (db : DB) (version : String)
    (hostF kindF : Option String) :
    ((loadMap db version hostF kindF).map Prod.fst).Nodup :=
  foldl_dictSet_keys_nodup _ [] List.nodup_nil

theorem unionKeys_nodup (baseM newM : List (NKey × String))
    (hb : (baseM.map Prod.fst).Nodup) (hn : (newM.map Prod.fst).Nodup) :
    (unionKeys baseM newM).Nodup := by
  unfold unionKeys
  rw [List.nodup_append]
  refine ⟨hb, hn.filter _, ?_⟩
  intro a ha hmem
  have hnot := (List.mem_filter.mp hmem).2
  have hfalse : decide (a ∈ baseM.map Prod.fst) = false := by
    cases hdec : decide (a ∈ baseM.map Prod.fst)
    · rfl
    · rw [hdec] at hnot; cases hnot
  exact absurd ha (of_decide_eq_false hfalse)

theorem unionKeys_mem (baseM newM : List (NKey × String)) (key : NKey) :
    key ∈ unionKeys baseM newM ↔
      ((alookup baseM key).isSome = true ∨ (alookup newM key).isSome = true) := by
  unfold unionKeys
  rw [List.mem_append, List.mem_filter, alookup_isSome_iff, alookup_isSome_iff]
  by_cases hb : key ∈ baseM.map Prod.fst <;> simp [hb]

theorem specDiffEntry_pair (loads : String → Option Json) (u : Bool)
    (bv nv ts : String) (baseM newM : List (NKey × String)) (key : NKey)
    (row : DiffRow)
    (h : specDiffEntry loads u bv nv ts baseM newM key = some row) :
    row.baseVersion = bv ∧ row.newVersion = nv := by
  unfold specDiffEntry at h
  rcases hb : alookup baseM key with _ | b <;> rcases hn : alookup newM key with _ | n <;>
    simp only [hb, hn] at h
  · cases h
  · cases h; exact ⟨rfl, rfl⟩
  · cases h; exact ⟨rfl, rfl⟩
  · split at h
    · cases h; exact ⟨rfl, rfl⟩
    · split at h
      · cases h
      · cases h; exact ⟨rfl, rfl⟩

theorem diffRowsOf_eq_filterMap (loads : String → Option Json) (db : DB)
    (bv nv ts : String) (hostF kindF : Option String) (u : Bool) :
    diffRowsOf loads db bv nv ts hostF kindF u
      = (unionKeys (loadMap db bv hostF kindF) (loadMap db nv hostF kindF)).filterMap
          (specDiffEntry loads u bv nv ts (loadMap db bv hostF kindF)
            (loadMap db nv hostF kindF)) := by
  unfold diffRowsOf diffAccOf
  rw [foldl_diffStep_rows]
  rfl

theorem diffRowsOf_pair (loads : String → Option Json) (db : DB)
    (bv nv ts : String) (hostF kindF : Option String) (u : Bool) :
    ∀ r ∈ diffRowsOf loads db bv nv ts hostF kindF u,
      r.baseVersion = bv ∧ r.newVersion = nv := by
  intro r hr
  rw [diffRowsOf_eq_filterMap] at hr
  rcases List.mem_filterMap.mp hr with ⟨key, _, hkey⟩
  exact specDiffEntry_pair _ _ _ _ _ _ _ _ _ hkey

theorem computeSummaryDiff_eq_of_true (loads : String → Option Json) (db : DB)
    (bv nv ts : String) (hostF kindF : Option String) (u : Bool)
    (h : (db.hasNormalizedState && db.hasSummaryDiff) = true) :
    computeSummaryDiff loads db bv nv ts hostF kindF u
      = ({ db with summaryDiff :=
            keptDiffRows db bv nv ++ diffRowsOf loads db bv nv ts hostF kindF u },
         ⟨(diffAccOf loads db bv nv ts hostF kindF u).added,
          (diffAccOf loads db bv nv ts hostF kindF u).removed,
          (diffAccOf loads db bv nv ts hostF kindF u).changed,
          (diffAccOf loads db bv nv ts hostF kindF u).added
            + (diffAccOf loads db bv nv ts hostF kindF u).removed
            + (diffAccOf loads db bv nv ts hostF kindF u).changed⟩) := by
  rw [computeSummaryDiff, if_pos h]
  rfl

theorem keptDiffRows_filter_pair (db : DB) (bv nv : String) :
    (keptDiffRows db bv nv).filter
      (fun r => r.baseVersion == bv && r.newVersion == nv) = [] := by
  rw [List.filter_eq_nil_iff]
  intro r hr
  have hkeep := (List.mem_filter.mp hr).2
  intro hpair
  rw [hpair] at hkeep
  cases hkeep

theorem diffRows_filter_pair (loads : String → Option Json) (db : DB)
    (bv nv ts : String) (hostF kindF : Option String) (u : Bool) :
    (diffRowsOf loads db bv nv ts hostF kindF u).filter
      (fun r => r.baseVersion == bv && r.newVersion == nv)
      = diffRowsOf loads db bv nv ts hostF kindF u := by
  rw [List.filter_eq_self]
  intro r hr
  obtain ⟨h1, h2⟩ := diffRowsOf_pair loads db bv nv ts hostF kindF u r hr
  simp [h1, h2]

/-- The rows a diff run leaves in `summary_diff` for the compared pair are
exactly the rows the run inserted (the prior rows of the pair were
deleted). -/
theorem computeSummaryDiff_newRows (loads : String → Option Json) (db : DB)
    (bv nv ts : String) (hostF kindF : Option String) (u : Bool)
    (hN : db.hasNormalizedState = true) (hS : db.hasSummaryDiff = true) :
    ((computeSummaryDiff loads db bv nv ts hostF kindF u).1.summaryDiff.filter
        (fun r => r.baseVersion == bv && r.newVersion == nv))
      = diffRowsOf loads db bv nv ts hostF kindF u := by
  rw [computeSummaryDiff_eq_of_true loads db bv nv ts hostF kindF u (by rw [hN, hS]; rfl)]
  show (keptDiffRows db bv nv ++ diffRowsOf loads db bv nv ts hostF kindF u).filter _ = _
  rw [List.filter_append, keptDiffRows_filter_pair, diffRows_filter_pair,
    List.nil_append]

-- ---------------------------------------------------------------------------
-- Claim C4: the diff rows are exactly the per-key classification
-- ---------------------------------------------------------------------------

/-- C4: for every database state and version pair, the rows a diff run
records for the pair are exactly one row per key in the duplicate-free
union of the two snapshots' key sets, classified as the spec states
(`specDiffEntry` transcribes the spec's words: `added` when absent in base
and present in new, `removed` in the converse case, `type` on a decoded
Python-type mismatch, `changed` on a failed normalized comparison, no row
on structural equality). -/
theorem diff_rows_exactly_classified (loads : String → Option Json) (u : Bool)
    (db : DB) (bv nv ts : String) (hostF kindF : Option String)
    (hN : db.hasNormalizedState = true) (hS : db.hasSummaryDiff = true) :
    (((computeSummaryDiff loads db bv nv ts hostF kindF u).1.summaryDiff.filter
        (fun r => r.baseVersion == bv && r.newVersion == nv))
      = (unionKeys (loadMap db bv hostF kindF) (loadMap db nv hostF kindF)).filterMap
          (specDiffEntry loads u bv nv ts (loadMap db bv hostF kindF)
            (loadMap db nv hostF kindF)))
    ∧ (unionKeys (loadMap db bv hostF kindF) (loadMap db nv hostF kindF)).Nodup
    ∧ ∀ key : NKey,
        key ∈ unionKeys (loadMap db bv hostF kindF) (loadMap db nv hostF kindF) ↔
          ((alookup (loadMap db bv hostF kindF) key).isSome = true
            ∨ (alookup (loadMap db nv hostF kindF) key).isSome = true) := by
  refine ⟨?_, ?_, ?_⟩
  · rw [computeSummaryDiff_newRows loads db bv nv ts hostF kindF u hN hS,
      diffRowsOf_eq_filterMap]
  · exact unionKeys_nodup _ _ (loadMap_keys_nodup db bv hostF kindF)
      (loadMap_keys_nodup db nv hostF kindF)
  · exact unionKeys_mem _ _

/-- Witness database for the diff claims: one key changed between the two
versions, one key only in the new version. -/
def diffWitnessDB : DB :=
  ⟨false, true, true, false, false, [],
   [⟨"v1", "r1", "bgp_peer", Json.str "10.0.0.1", "A", "t1"⟩,
    ⟨"v2", "r1", "bgp_peer", Json.str "10.0.0.1", "B", "t2"⟩,
    ⟨"v2", "r1", "bgp_peer", Json.str "10.0.0.2", "C", "t2"⟩],
   [], [], [], [], []⟩

/-- Witness for C4 at a concrete database. -/
theorem diff_rows_exactly_classified_witness :
    ((computeSummaryDiff (fun _ => none) diffWitnessDB "v1" "v2" "t3" none none
        false).1.summaryDiff.filter
        (fun r => r.baseVersion == "v1" && r.newVersion == "v2"))
      = (unionKeys (loadMap diffWitnessDB "v1" none none)
          (loadMap diffWitnessDB "v2" none none)).filterMap
          (specDiffEntry (fun _ => none) false "v1" "v2" "t3"
            (loadMap diffWitnessDB "v1" none none)
            (loadMap diffWitnessDB "v2" none none)) :=
  (diff_rows_exactly_classified (fun _ => none) false diffWitnessDB "v1" "v2" "t3"
    none none rfl rfl).1

-- ---------------------------------------------------------------------------
-- Claim C3: the diff operation is idempotent
-- ---------------------------------------------------------------------------

theorem keptDiffRows_idem (db : DB) (bv nv : String)
    (rows : List DiffRow)
    (hrows : ∀ r ∈ rows, r.baseVersion = bv ∧ r.newVersion = nv) :
    keptDiffRows { db with summaryDiff := keptDiffRows db bv nv ++ rows } bv nv
      = keptDiffRows db bv nv := by
  show (keptDiffRows db bv nv ++ rows).filter _ = _
  rw [List.filter_append]
  have h1 : (keptDiffRows db bv nv).filter
      (fun r => !(r.baseVersion == bv && r.newVersion == nv))
      = keptDiffRows db bv nv :=
    List.filter_eq_self.mpr (fun a ha => (List.mem_filter.mp ha).2)
  have h2 : rows.filter (fun r => !(r.baseVersion == bv && r.newVersion == nv)) = [] := by
    rw [List.filter_eq_nil_iff]
    intro r hr
    obtain ⟨hb, hn⟩ := hrows r hr
    simp [hb, hn]
  rw [h1, h2, List.append_nil]

/-- C3: running the diff twice with the same arguments leaves exactly the
same database state (hence the same `summary_diff` rows for the pair) and
returns the same `{added, removed, changed, total}` counts as running it
once: prior rows of the pair are deleted before inserting, so nothing
accumulates.  Stated for every database state, including the
missing-tables no-op branch. -/
theorem computeSummaryDiff_idempotent (loads : String → Option Json) (db : DB)
    (bv nv ts : String) (hostF kindF : Option String) (u : Bool) :
    computeSummaryDiff loads
        (computeSummaryDiff loads db bv nv ts hostF kindF u).1 bv nv ts hostF kindF u
      = computeSummaryDiff loads db bv nv ts hostF kindF u := by
  by_cases h : (db.hasNormalizedState && db.hasSummaryDiff) = true
  · rw [computeSummaryDiff_eq_of_true loads db bv nv ts hostF kindF u h]
    show computeSummaryDiff loads
        ({ db with summaryDiff :=
            keptDiffRows db bv nv ++ diffRowsOf loads db bv nv ts hostF kindF u })
        bv nv ts hostF kindF u = _
    rw [computeSummaryDiff_eq_of_true loads
      ({ db with summaryDiff :=
          keptDiffRows db bv nv ++ diffRowsOf loads db bv nv ts hostF kindF u })
      bv nv ts hostF kindF u h]
    rw [keptDiffRows_idem db bv nv _ (diffRowsOf_pair loads db bv nv ts hostF kindF u)]
    rfl
  · have h0 : computeSummaryDiff loads db bv nv ts hostF kindF u = (db, ⟨0, 0, 0, 0⟩) := by
      rw [computeSummaryDiff, if_neg h]
    rw [h0]
    exact h0

-- ---------------------------------------------------------------------------
-- Claim C9: the shape and consistency of the returned counts
-- ---------------------------------------------------------------------------

/-- Number of inserted rows recorded with the given change marker. -/
def countChange (rows : List DiffRow) (c : String) : Nat :=
  (rows.filter (fun r => r.change == c)).length

/-- Number of inserted rows recorded as `changed` or `type` (both bump the
single `changed` counter in the code). -/
def countChangedType (rows : List DiffRow) : Nat :=
  (rows.filter (fun r => r.change == "changed" || r.change == "type")).length

theorem countChange_append (rows : List DiffRow) (r : DiffRow) (c : String) :
    countChange (rows ++ [r]) c
      = countChange rows c + (if r.change == c then 1 else 0) := by
  unfold countChange
  rw [List.filter_append, List.length_append, List.filter_singleton]
  by_cases hc : (r.change == c) = true
  · rw [if_pos hc]; simp [hc]
  · rw [if_neg hc]; simp [Bool.not_eq_true _ |>.mp hc]

theorem countChangedType_append (rows : List DiffRow) (r : DiffRow) :
    countChangedType (rows ++ [r])
      = countChangedType rows
        + (if r.change == "changed" || r.change == "type" then 1 else 0) := by
  unfold countChangedType
  rw [List.filter_append, List.length_append, List.filter_singleton]
  by_cases hc : (r.change == "changed" || r.change == "type") = true
  · rw [if_pos hc]; simp [hc]
  · rw [if_neg hc]; simp [Bool.not_eq_true _ |>.mp hc]

theorem diffValue_cases (loads : String → Option Json) (u : Bool)
    (b n c : String) (h : diffValue loads u b n = some c) :
    c = "type" ∨ c = "changed" := by
  unfold diffValue at h
  split at h
  · cases h; exact Or.inl rfl
  · split at h
    · cases h
    · cases h; exact Or.inr rfl

theorem diffStep_eq_nothing (loads : String → Option Json) (u : Bool)
    (bv nv ts : String) (baseM newM : List (NKey × String)) (acc : DiffAcc)
    (key : NKey) (hb : alookup baseM key = none) (hn : alookup newM key = none) :
    diffStep loads u bv nv ts baseM newM acc key = acc := by
  unfold diffStep; rw [hb, hn]

theorem diffStep_eq_added (loads : String → Option Json) (u : Bool)
    (bv nv ts : String) (baseM newM : List (NKey × String)) (acc : DiffAcc)
    (key : NKey) (n : String)
    (hb : alookup baseM key = none) (hn : alookup newM key = some n) :
    diffStep loads u bv nv ts baseM newM acc key
      = ⟨acc.rows ++ [mkDiffRow bv nv ts key "added" none (some n)],
         acc.added + 1, acc.removed, acc.changed⟩ := by
  unfold diffStep; rw [hb, hn]

theorem diffStep_eq_removed (loads : String → Option Json) (u : Bool)
    (bv nv ts : String) (baseM newM : List (NKey × String)) (acc : DiffAcc)
    (key : NKey) (b : String)
    (hb : alookup baseM key = some b) (hn : alookup newM key = none) :
    diffStep loads u bv nv ts baseM newM acc key
      = ⟨acc.rows ++ [mkDiffRow bv nv ts key "removed" (some b) none],
         acc.added, acc.removed + 1, acc.changed⟩ := by
  unfold diffStep; rw [hb, hn]

theorem diffStep_eq_change (loads : String → Option Json) (u : Bool)
    (bv nv ts : String) (baseM newM : List (NKey × String)) (acc : DiffAcc)
    (key : NKey) (b n c : String)
    (hb : alookup baseM key = some b) (hn : alookup newM key = some n)
    (hdv : diffValue loads u b n = some c) :
    diffStep loads u bv nv ts baseM newM acc key
      = ⟨acc.rows ++ [mkDiffRow bv nv ts key c (some b) (some n)],
         acc.added, acc.removed, acc.changed + 1⟩ := by
  unfold diffStep; rw [hb, hn]; simp only [hdv]

theorem diffStep_eq_equal (loads : String → Option Json) (u : Bool)
    (bv nv ts : String) (baseM newM : List (NKey × String)) (acc : DiffAcc)
    (key : NKey) (b n : String)
    (hb : alookup baseM key = some b) (hn : alookup newM key = some n)
    (hdv : diffValue loads u b n = none) :
    diffStep loads u bv nv ts baseM newM acc key = acc := by
  unfold diffStep; rw [hb, hn]; simp only [hdv]

theorem diffStep_counts (loads : String → Option Json) (u : Bool)
    (bv nv ts : String) (baseM newM : List (NKey × String)) (acc : DiffAcc)
    (key : NKey)
    (h1 : acc.added = countChange acc.rows "added")
    (h2 : acc.removed = countChange acc.rows "removed")
    (h3 : acc.changed = countChangedType acc.rows) :
    (diffStep loads u bv nv ts baseM newM acc key).added
        = countChange (diffStep loads u bv nv ts baseM newM acc key).rows "added"
    ∧ (diffStep loads u bv nv ts baseM newM acc key).removed
        = countChange (diffStep loads u bv nv ts baseM newM acc key).rows "removed"
    ∧ (diffStep loads u bv nv ts baseM newM acc key).changed
        = countChangedType (diffStep loads u bv nv ts baseM newM acc key).rows := by
  rcases hb : alookup baseM key with _ | b <;> rcases hn : alookup newM key with _ | n
  · rw [diffStep_eq_nothing loads u bv nv ts baseM newM acc key hb hn]
    exact ⟨h1, h2, h3⟩
  · rw [diffStep_eq_added loads u bv nv ts baseM newM acc key n hb hn]
    refine ⟨?_, ?_, ?_⟩ <;>
      simp [countChange_append, countChangedType_append, mkDiffRow, h1, h2, h3]
  · rw [diffStep_eq_removed loads u bv nv ts baseM newM acc key b hb hn]
    refine ⟨?_, ?_, ?_⟩ <;>
      simp [countChange_append, countChangedType_append, mkDiffRow, h1, h2, h3]
  · rcases hdv : diffValue loads u b n with _ | c
    · rw [diffStep_eq_equal loads u bv nv ts baseM newM acc key b n hb hn hdv]
      exact ⟨h1, h2, h3⟩
    · rcases diffValue_cases loads u b n c hdv with hc | hc <;> subst hc <;>
        rw [diffStep_eq_change loads u bv nv ts baseM newM acc key b n _ hb hn hdv] <;>
        refine ⟨?_, ?_, ?_⟩ <;>
        simp [countChange_append, countChangedType_append, mkDiffRow, h1, h2, h3]

theorem foldl_diffStep_counts (loads : String → Option Json) (u : Bool)
    (bv nv ts : String) (baseM newM : List (NKey × String)) :
    ∀ (keys : List NKey) (acc : DiffAcc),
      acc.added = countChange acc.rows "added" →
      acc.removed = countChange acc.rows "removed" →
      acc.changed = countChangedType acc.rows →
      (keys.foldl (diffStep loads u bv nv ts baseM newM) acc).added
          = countChange (keys.foldl (diffStep loads u bv nv ts baseM newM) acc).rows "added"
      ∧ (keys.foldl (diffStep loads u bv nv ts baseM newM) acc).removed
          = countChange (keys.foldl (diffStep loads u bv nv ts baseM newM) acc).rows "removed"
      ∧ (keys.foldl (diffStep loads u bv nv ts baseM newM) acc).changed
          = countChangedType (keys.foldl (diffStep loads u bv nv ts baseM newM) acc).rows := by
  intro keys
  induction keys with
  | nil => intro acc ha hr hc; exact ⟨ha, hr, hc⟩
  | cons key rest ih =>
    intro acc ha hr hc
    obtain ⟨ha2, hr2, hc2⟩ :=
      diffStep_counts loads u bv nv ts baseM newM acc key ha hr hc
    exact ih _ ha2 hr2 hc2

/-- C9: the counts dict returned by a diff run has exactly the fields
`added`, `removed`, `changed`, `total` (the `DiffCounts` structure
transcribes the returned dict literal; there is no separate `type` entry):
`total` always equals `added + removed + changed`, `added`/`removed` count
exactly the rows recorded with those markers for the pair, and `changed`
counts every row recorded as `changed` or as `type`. -/
theorem diff_counts_shape (loads : String → Option Json) (u : Bool) (db : DB)
    (bv nv ts : String) (hostF kindF : Option String)
    (hN : db.hasNormalizedState = true) (hS : db.hasSummaryDiff = true) :
    (computeSummaryDiff loads db bv nv ts hostF kindF u).2.total
        = (computeSummaryDiff loads db bv nv ts hostF kindF u).2.added
          + (computeSummaryDiff loads db bv nv ts hostF kindF u).2.removed
          + (computeSummaryDiff loads db bv nv ts hostF kindF u).2.changed
    ∧ (computeSummaryDiff loads db bv nv ts hostF kindF u).2.added
        = countChange ((computeSummaryDiff loads db bv nv ts hostF kindF u).1.summaryDiff.filter
            (fun r => r.baseVersion == bv && r.newVersion == nv)) "added"
    ∧ (computeSummaryDiff loads db bv nv ts hostF kindF u).2.removed
        = countChange ((computeSummaryDiff loads db bv nv ts hostF kindF u).1.summaryDiff.filter
            (fun r => r.baseVersion == bv && r.newVersion == nv)) "removed"
    ∧ (computeSummaryDiff loads db bv nv ts hostF kindF u).2.changed
        = countChangedType ((computeSummaryDiff loads db bv nv ts hostF kindF u).1.summaryDiff.filter
            (fun r => r.baseVersion == bv && r.newVersion == nv)) := by
  have hrows := computeSummaryDiff_newRows loads db bv nv ts hostF kindF u hN hS
  have hacc := foldl_diffStep_counts loads u bv nv ts
    (loadMap db bv hostF kindF) (loadMap db nv hostF kindF)
    (unionKeys (loadMap db bv hostF kindF) (loadMap db nv hostF kindF))
    ⟨[], 0, 0, 0⟩ rfl rfl rfl
  rw [computeSummaryDiff_eq_of_true loads db bv nv ts hostF kindF u
    (by rw [hN, hS]; rfl)] at hrows ⊢
  refine ⟨rfl, ?_, ?_, ?_⟩ <;> rw [hrows]
  · exact hacc.1
  · exact hacc.2.1
  · exact hacc.2.2

/-- Witness for C9 at a concrete database. -/
theorem diff_counts_shape_witness :
    (computeSummaryDiff (fun _ => none) diffWitnessDB "v1" "v2" "t3" none none
        false).2.total
      = (computeSummaryDiff (fun _ => none) diffWitnessDB "v1" "v2" "t3" none none
          false).2.added
        + (computeSummaryDiff (fun _ => none) diffWitnessDB "v1" "v2" "t3" none none
            false).2.removed
        + (computeSummaryDiff (fun _ => none) diffWitnessDB "v1" "v2" "t3" none none
            false).2.changed :=
  (diff_counts_shape (fun _ => none) false diffWitnessDB "v1" "v2" "t3" none none
    rfl rfl).1

-- ---------------------------------------------------------------------------
-- Claim C5: unordered arrays and dict key order in the comparison
-- ---------------------------------------------------------------------------

theorem pyNormalizeDump_eq_map (u : Bool) (xs : List Json) :
    pyNormalizeDump u xs = xs.map (fun x => dumps (pyNormalize u x)) := by
  induction xs with
  | nil => rfl
  | cons x rest ih => simp [pyNormalizeDump, ih]

theorem pyNormalizeFields_eq_map (u : Bool) (fs : List (String × Json)) :
    pyNormalizeFields u fs = fs.map (fun p => (p.1, pyNormalize u p.2)) := by
  induction fs with
  | nil => rfl
  | cons p rest ih => cases p; simp [pyNormalizeFields, ih]

theorem pyNormalizeFields_keys (u : Bool) (fs : List (String × Json)) :
    (pyNormalizeFields u fs).map Prod.fst = fs.map Prod.fst := by
  induction fs with
  | nil => rfl
  | cons p rest ih => cases p; simp [pyNormalizeFields, ih]

/-- Two permuted string lists sort to the same list (Python `sorted`). -/
theorem sortStrs_perm_eq (l₁ l₂ : List String) (hp : l₁.Perm l₂) :
    sortStrs l₁ = sortStrs l₂ :=
  List.eq_of_perm_of_sorted
    (((List.perm_insertionSort _ l₁).trans hp).trans
      (List.perm_insertionSort _ l₂).symm)
    (List.sorted_insertionSort _ l₁) (List.sorted_insertionSort _ l₂)

/-- Two permuted field lists that are both sorted by key and have
duplicate-free keys are equal. -/
theorem sorted_nodup_keys_unique (s₁ : List (String × Json)) :
    ∀ (s₂ : List (String × Json)), s₁.Perm s₂ →
      List.Sorted fieldLe s₁ → List.Sorted fieldLe s₂ →
      (s₁.map Prod.fst).Nodup → s₁ = s₂ := by
  induction s₁ with
  | nil =>
    intro s₂ hp _ _ _
    exact hp.nil_eq
  | cons a t₁ ih =>
    intro s₂ hp hs₁ hs₂ hn
    rcases s₂ with _ | ⟨b, t₂⟩
    · exact absurd hp.eq_nil (List.cons_ne_nil a t₁)
    · have hmem : a ∈ b :: t₂ := hp.mem_iff.mp (List.mem_cons_self a t₁)
      have hkeysperm : ((a :: t₁).map Prod.fst).Perm ((b :: t₂).map Prod.fst) :=
        hp.map Prod.fst
      have hn₂ : ((b :: t₂).map Prod.fst).Nodup := hkeysperm.nodup_iff.mp hn
      have hab : a = b := by
        rcases List.mem_cons.mp hmem with h | h
        · exact h
        · have hba : fieldLe b a := (List.sorted_cons.mp hs₂).1 a h
          have hmem₂ : b ∈ a :: t₁ := hp.mem_iff.mpr (List.mem_cons_self b t₂)
          rcases List.mem_cons.mp hmem₂ with h2 | h2
          · exact h2.symm
          · have hab2 : fieldLe a b := (List.sorted_cons.mp hs₁).1 b h2
            have hkey : a.1 = b.1 := le_antisymm hab2 hba
            have hin : a.1 ∈ t₂.map Prod.fst := List.mem_map.mpr ⟨a, h, rfl⟩
            rw [hkey] at hin
            have hnotin : b.1 ∉ t₂.map Prod.fst :=
              (List.nodup_cons.mp (by simpa using hn₂)).1
            exact absurd hin hnotin
      subst hab
      have htails := ih t₂ hp.cons_inv (List.sorted_cons.mp hs₁).2
        (List.sorted_cons.mp hs₂).2
        (List.nodup_cons.mp (by simpa using hn)).2
      rw [htails]

/-- Two permuted field lists with duplicate-free keys sort to the same
field list: key order is normalized away by the comparison. -/
theorem sortFields_perm_eq (l₁ l₂ : List (String × Json)) (hp : l₁.Perm l₂)
    (hn : (l₁.map Prod.fst).Nodup) : sortFields l₁ = sortFields l₂ := by
  apply sorted_nodup_keys_unique
  · exact ((List.perm_insertionSort fieldLe l₁).trans hp).trans
      (List.perm_insertionSort fieldLe l₂).symm
  · exact List.sorted_insertionSort fieldLe l₁
  · exact List.sorted_insertionSort fieldLe l₂
  · exact (((List.perm_insertionSort fieldLe l₁).map Prod.fst).nodup_iff).mpr hn

/-- With `set_unordered`, a permuted array normalizes to the same value. -/
theorem pyNormalize_arr_perm (xs ys : List Json) (hp : xs.Perm ys) :
    pyNormalize true (Json.arr xs) = pyNormalize true (Json.arr ys) := by
  show Json.arr ((sortStrs (pyNormalizeDump true xs)).map Json.str)
      = Json.arr ((sortStrs (pyNormalizeDump true ys)).map Json.str)
  rw [pyNormalizeDump_eq_map, pyNormalizeDump_eq_map,
    sortStrs_perm_eq _ _ (hp.map _)]

/-- Reordered dict fields (dup-free keys) normalize to the same value, with
or without the unordered-arrays option. -/
theorem pyNormalize_obj_perm (u : Bool) (fs gs : List (String × Json))
    (hp : fs.Perm gs) (hn : (fs.map Prod.fst).Nodup) :
    pyNormalize u (Json.obj fs) = pyNormalize u (Json.obj gs) := by
  have h1 : (pyNormalizeFields u fs).Perm (pyNormalizeFields u gs) := by
    rw [pyNormalizeFields_eq_map, pyNormalizeFields_eq_map]
    exact hp.map _
  have h2 : ((pyNormalizeFields u fs).map Prod.fst).Nodup := by
    rw [pyNormalizeFields_keys]; exact hn
  show Json.obj (sortFields (pyNormalizeFields u fs))
      = Json.obj (sortFields (pyNormalizeFields u gs))
  rw [sortFields_perm_eq _ _ h1 h2]

/-- C5: when the two stored values decode to equal objects except that one
list field is a permutation of the other's, the unordered-arrays comparison
records no diff row for that key (`diffValue` returns `none`, the no-row
outcome of the key loop); and dict key order is normalized in the
comparison regardless of the option: reordering duplicate-free dict fields
makes `_equal` hold for any `set_unordered` value. -/
theorem diff_unordered_array_permutation (loads : String → Option Json)
    (bs ns : String) (pre post : List (String × Json)) (f : String)
    (xs ys : List Json)
    (hb : loads bs = some (Json.obj (pre ++ (f, Json.arr xs) :: post)))
    (hn : loads ns = some (Json.obj (pre ++ (f, Json.arr ys) :: post)))
    (hperm : xs.Perm ys) :
    diffValue loads true bs ns = none
    ∧ ∀ (u : Bool) (fs gs : List (String × Json)), fs.Perm gs →
        (fs.map Prod.fst).Nodup →
        jEqual u (Json.obj fs) (Json.obj gs) = true := by
  constructor
  · have hsb : safeLoad loads bs = Json.obj (pre ++ (f, Json.arr xs) :: post) := by
      unfold safeLoad; rw [hb]
    have hsn : safeLoad loads ns = Json.obj (pre ++ (f, Json.arr ys) :: post) := by
      unfold safeLoad; rw [hn]
    have hnorm : pyNormalize true (Json.obj (pre ++ (f, Json.arr xs) :: post))
        = pyNormalize true (Json.obj (pre ++ (f, Json.arr ys) :: post)) := by
      show Json.obj (sortFields (pyNormalizeFields true (pre ++ (f, Json.arr xs) :: post)))
          = Json.obj (sortFields (pyNormalizeFields true (pre ++ (f, Json.arr ys) :: post)))
      rw [pyNormalizeFields_eq_map, pyNormalizeFields_eq_map]
      simp only [List.map_append, List.map_cons]
      rw [pyNormalize_arr_perm xs ys hperm]
    unfold diffValue
    rw [hsb, hsn]
    rw [if_neg (by simp [jtag])]
    rw [if_pos (show jEqual true _ _ = true from by
      unfold jEqual; exact decide_eq_true hnorm)]
  · intro u fs gs hpfg hnod
    unfold jEqual
    exact decide_eq_true (pyNormalize_obj_perm u fs gs hpfg hnod)

/-- Witness `json.loads` oracle for C5: two serialized values whose
`peers` list is permuted. -/
def c5Loads : String → Option Json := fun s =>
  if s = "B" then some (Json.obj [("peers", Json.arr [Json.num 1, Json.num 2])])
  else if s = "N" then some (Json.obj [("peers", Json.arr [Json.num 2, Json.num 1])])
  else none

/-- Witness for C5 at a concrete input. -/
theorem diff_unordered_array_permutation_witness :
    diffValue c5Loads true "B" "N" = none :=
  (diff_unordered_array_permutation c5Loads "B" "N" [] [] "peers"
    [Json.num 1, Json.num 2] [Json.num 2, Json.num 1] rfl rfl
    (List.Perm.swap (Json.num 2) (Json.num 1) [])).1

-- ---------------------------------------------------------------------------
-- The retention pruner (main --prune, lines 897-963)
-- ---------------------------------------------------------------------------

/-- `sorted(set(versions))` over the distinct versions of
`normalized_state` and `raw_state` (each consulted only when the table
exists), lines 905-910. -/
def pruneVersions (db : DB) : List String :=
  ((if db.hasNormalizedState then db.normalizedState.map (fun r => r.version) else [])
    ++ (if db.hasRawState then db.rawState.map (fun r => r.version) else [])).dedup.insertionSort
    (· ≤ ·)

/-- `versions[-keep_n:] if keep_n > 0 else set()` (line 918). -/
def pruneKeepSet (versions : List String) (keepN : Nat) : List String :=
  if keepN > 0 then versions.drop (versions.length - keepN) else []

/-- `del_list = [v for v in versions if v not in keep_set]` (line 919),
with `keep_n = max(0, int(args.keep))`. -/
def pruneDelList (db : DB) (keep : Int) : List String :=
  (pruneVersions db).filter
    (fun v => !(decide (v ∈ pruneKeepSet (pruneVersions db) (max 0 keep).toNat)))

/-- The terminal outcome of a prune run: nothing present, nothing to
delete, dry-run plan, or deletions performed. -/
inductive PruneOutcome where
  | empty
  | nodel
  | plan
  | pruned
deriving DecidableEq

/-- The prune mode of `main` (lines 897-963): no versions → no-op; empty
deletion set → no-op; dry run → plan only; otherwise delete, per existing
table, the `summary_diff` rows referencing a pruned version on either side
and the `normalized_state`/`raw_state`/`schema_meta` rows of a pruned
version (in that order). -/
def prune (db : DB) (keep : Int) (dryRun : Bool) : DB × PruneOutcome :=
  if pruneVersions db = [] then (db, PruneOutcome.empty)
  else if pruneDelList db keep = [] then (db, PruneOutcome.nodel)
  else if dryRun then (db, PruneOutcome.plan)
  else
    let db1 :=
      if db.hasSummaryDiff then
        { db with summaryDiff := db.summaryDiff.filter (fun r =>
            !(decide (r.baseVersion ∈ pruneDelList db keep)
              || decide (r.newVersion ∈ pruneDelList db keep))) }
      else db
    let db2 :=
      if db1.hasNormalizedState then
        { db1 with normalizedState := db1.normalizedState.filter (fun r =>
            !(decide (r.version ∈ pruneDelList db keep))) }
      else db1
    let db3 :=
      if db2.hasRawState then
        { db2 with rawState := db2.rawState.filter (fun r =>
            !(decide (r.version ∈ pruneDelList db keep))) }
      else db2
    let db4 :=
      if db3.hasSchemaMeta then
        { db3 with schemaMeta := db3.schemaMeta.filter (fun r =>
            !(decide (r.version ∈ pruneDelList db keep))) }
      else db3
    (db4, PruneOutcome.pruned)

theorem pruneVersions_nodup (db : DB) : (pruneVersions db).Nodup :=
  ((List.perm_insertionSort _ _).nodup_iff).mpr (List.nodup_dedup _)

theorem pruneVersions_sorted (db : DB) :
    List.Sorted (fun a b : String => a ≤ b) (pruneVersions db) :=
  List.sorted_insertionSort _ _

theorem mem_pruneVersions (db : DB) (v : String)
    (h : v ∈ (if db.hasNormalizedState then
          db.normalizedState.map (fun r => r.version) else [])
        ++ (if db.hasRawState then db.rawState.map (fun r => r.version) else [])) :
    v ∈ pruneVersions db := by
  unfold pruneVersions
  rw [(List.perm_insertionSort _ _).mem_iff]
  exact List.mem_dedup.mpr h

theorem filter_not_mem_append (t d : List String) (hdisj : List.Disjoint t d) :
    (t ++ d).filter (fun v => !(decide (v ∈ d))) = t := by
  rw [List.filter_append]
  have h1 : t.filter (fun v => !(decide (v ∈ d))) = t := by
    rw [List.filter_eq_self]
    intro a ha
    simpa using hdisj ha
  have h2 : d.filter (fun v => !(decide (v ∈ d))) = [] := by
    rw [List.filter_eq_nil_iff]
    intro a ha
    simp [ha]
  rw [h1, h2, List.append_nil]

theorem filter_not_mem_drop (l : List String) (k : Nat) (hnd : l.Nodup) :
    l.filter (fun v => !(decide (v ∈ l.drop k))) = l.take k := by
  have hdisj : List.Disjoint (l.take k) (l.drop k) := by
    have h2 := hnd
    rw [← List.take_append_drop k l] at h2
    exact (List.nodup_append.mp h2).2.2
  calc l.filter (fun v => !(decide (v ∈ l.drop k)))
      = (l.take k ++ l.drop k).filter (fun v => !(decide (v ∈ l.drop k))) := by
        rw [List.take_append_drop]
    _ = l.take k := filter_not_mem_append _ _ hdisj

/-- The deletion set is everything except the `keepN` greatest versions of
the sorted duplicate-free version list. -/
theorem pruneDelList_eq_take (db : DB) (keep : Int) :
    pruneDelList db keep
      = (pruneVersions db).take
          ((pruneVersions db).length - (max 0 keep).toNat) := by
  unfold pruneDelList pruneKeepSet
  by_cases hk : (max 0 keep).toNat > 0
  · rw [if_pos hk]
    exact filter_not_mem_drop _ _ (pruneVersions_nodup db)
  · rw [if_neg hk]
    have hzero : (max 0 keep).toNat = 0 := Nat.eq_zero_of_not_pos hk
    rw [hzero, Nat.sub_zero, List.take_length, List.filter_eq_self]
    intro a _
    simp

theorem prune_eq_empty (db : DB) (keep : Int) (dryRun : Bool)
    (hv : pruneVersions db = []) :
    prune db keep dryRun = (db, PruneOutcome.empty) := by
  unfold prune; rw [if_pos hv]

theorem prune_eq_nodel (db : DB) (keep : Int) (dryRun : Bool)
    (hv : ¬pruneVersions db = []) (hd : pruneDelList db keep = []) :
    prune db keep dryRun = (db, PruneOutcome.nodel) := by
  unfold prune; rw [if_neg hv, if_pos hd]

theorem prune_eq_pruned (db : DB) (keep : Int)
    (hv : ¬pruneVersions db = []) (hd : ¬pruneDelList db keep = [])
    (hR : db.hasRawState = true) (hN : db.hasNormalizedState = true)
    (hS : db.hasSummaryDiff = true) (hM : db.hasSchemaMeta = true) :
    prune db keep false
      = (⟨db.hasRawState, db.hasNormalizedState, db.hasSummaryDiff,
          db.hasSchemaMeta, db.hasRoutingSummary,
          db.rawState.filter (fun r => !(decide (r.version ∈ pruneDelList db keep))),
          db.normalizedState.filter (fun r => !(decide (r.version ∈ pruneDelList db keep))),
          db.summaryDiff.filter (fun r =>
            !(decide (r.baseVersion ∈ pruneDelList db keep)
              || decide (r.newVersion ∈ pruneDelList db keep))),
          db.schemaMeta.filter (fun r => !(decide (r.version ∈ pruneDelList db keep))),
          db.routingBgpPeer, db.routingOspfNeighbor, db.routingSummary⟩,
         PruneOutcome.pruned) := by
  unfold prune
  rw [if_neg hv, if_neg hd]
  simp only [hR, hN, hS, hM, if_true, Bool.false_eq_true, if_false]

theorem filter_true_of_nil_mem {α : Type} (l : List α) (f : α → String) :
    l.filter (fun r => !(decide (f r ∈ ([] : List String)))) = l := by
  rw [List.filter_eq_self]
  intro a _
  simp

theorem filter_true_of_nil_mem2 {α : Type} (l : List α) (f g : α → String) :
    l.filter (fun r =>
      !(decide (f r ∈ ([] : List String)) || decide (g r ∈ ([] : List String)))) = l := by
  rw [List.filter_eq_self]
  intro a _
  simp

/-- C6: prune sorts the distinct versions of the snapshot tables
lexicographically into a duplicate-free list, the deletion set is
everything except the `max 0 keep` greatest versions, and (tables present)
the surviving rows of `summary_diff`, `normalized_state`, `raw_state` and
`schema_meta` are exactly those referencing no deleted version; when the
number of distinct versions is at most `keep` nothing is deleted and a
no-op is reported, and `keep = 0` empties both snapshot tables. -/
theorem prune_retention (db : DB) (keep : Int)
    (hR : db.hasRawState = true) (hN : db.hasNormalizedState = true)
    (hS : db.hasSummaryDiff = true) (hM : db.hasSchemaMeta = true) :
    (List.Sorted (fun a b : String => a ≤ b) (pruneVersions db)
      ∧ (pruneVersions db).Nodup)
    ∧ pruneDelList db keep
        = (pruneVersions db).take
            ((pruneVersions db).length - (max 0 keep).toNat)
    ∧ (prune db keep false).1.summaryDiff
        = db.summaryDiff.filter (fun r =>
            !(decide (r.baseVersion ∈ pruneDelList db keep)
              || decide (r.newVersion ∈ pruneDelList db keep)))
    ∧ (prune db keep false).1.normalizedState
        = db.normalizedState.filter (fun r =>
            !(decide (r.version ∈ pruneDelList db keep)))
    ∧ (prune db keep false).1.rawState
        = db.rawState.filter (fun r =>
            !(decide (r.version ∈ pruneDelList db keep)))
    ∧ (prune db keep false).1.schemaMeta
        = db.schemaMeta.filter (fun r =>
            !(decide (r.version ∈ pruneDelList db keep)))
    ∧ ((pruneVersions db).length ≤ (max 0 keep).toNat →
        (prune db keep false).1 = db
        ∧ ((prune db keep false).2 = PruneOutcome.empty
            ∨ (prune db keep false).2 = PruneOutcome.nodel))
    ∧ (keep = 0 →
        (prune db keep false).1.normalizedState = []
        ∧ (prune db keep false).1.rawState = []) := by
  have hfilters :
      (prune db keep false).1.summaryDiff
        = db.summaryDiff.filter (fun r =>
            !(decide (r.baseVersion ∈ pruneDelList db keep)
              || decide (r.newVersion ∈ pruneDelList db keep)))
      ∧ (prune db keep false).1.normalizedState
        = db.normalizedState.filter (fun r =>
            !(decide (r.version ∈ pruneDelList db keep)))
      ∧ (prune db keep false).1.rawState
        = db.rawState.filter (fun r =>
            !(decide (r.version ∈ pruneDelList db keep)))
      ∧ (prune db keep false).1.schemaMeta
        = db.schemaMeta.filter (fun r =>
            !(decide (r.version ∈ pruneDelList db keep))) := by
    by_cases hv : pruneVersions db = []
    · have hdel : pruneDelList db keep = [] := by
        unfold pruneDelList
        rw [hv]
        rfl
      rw [prune_eq_empty db keep false hv, hdel]
      exact ⟨(filter_true_of_nil_mem2 _ _ _).symm, (filter_true_of_nil_mem _ _).symm,
        (filter_true_of_nil_mem _ _).symm, (filter_true_of_nil_mem _ _).symm⟩
    · by_cases hd : pruneDelList db keep = []
      · rw [prune_eq_nodel db keep false hv hd, hd]
        exact ⟨(filter_true_of_nil_mem2 _ _ _).symm, (filter_true_of_nil_mem _ _).symm,
          (filter_true_of_nil_mem _ _).symm, (filter_true_of_nil_mem _ _).symm⟩
      · rw [prune_eq_pruned db keep hv hd hR hN hS hM]
        exact ⟨rfl, rfl, rfl, rfl⟩
  have hF : (pruneVersions db).length ≤ (max 0 keep).toNat →
      (prune db keep false).1 = db
      ∧ ((prune db keep false).2 = PruneOutcome.empty
          ∨ (prune db keep false).2 = PruneOutcome.nodel) := by
    intro hle
    have hdel0 : pruneDelList db keep = [] := by
      rw [pruneDelList_eq_take, Nat.sub_eq_zero_of_le hle, List.take_zero]
    by_cases hv : pruneVersions db = []
    · rw [prune_eq_empty db keep false hv]
      exact ⟨rfl, Or.inl rfl⟩
    · rw [prune_eq_nodel db keep false hv hdel0]
      exact ⟨rfl, Or.inr rfl⟩
  have hG : keep = 0 →
      (prune db keep false).1.normalizedState = []
      ∧ (prune db keep false).1.rawState = [] := by
    intro hk
    subst hk
    have hdelall : pruneDelList db 0 = pruneVersions db := by
      rw [pruneDelList_eq_take]
      have hmz : ((max 0 (0 : Int)).toNat) = 0 := by decide
      rw [hmz, Nat.sub_zero, List.take_length]
    constructor
    · rw [hfilters.2.1, hdelall, List.filter_eq_nil_iff]
      intro r hr
      have hmem : r.version ∈ pruneVersions db := by
        apply mem_pruneVersions
        rw [List.mem_append]
        refine Or.inl ?_
        simp only [hN, if_true]
        exact List.mem_map.mpr ⟨r, hr, rfl⟩
      simp [hmem]
    · rw [hfilters.2.2.1, hdelall, List.filter_eq_nil_iff]
      intro r hr
      have hmem : r.version ∈ pruneVersions db := by
        apply mem_pruneVersions
        rw [List.mem_append]
        refine Or.inr ?_
        simp only [hR, if_true]
        exact List.mem_map.mpr ⟨r, hr, rfl⟩
      simp [hmem]
  exact ⟨⟨pruneVersions_sorted db, pruneVersions_nodup db⟩,
    pruneDelList_eq_take db keep, hfilters.1, hfilters.2.1, hfilters.2.2.1,
    hfilters.2.2.2, hF, hG⟩

/-- Witness database for C6: two versions across the snapshot tables, one
diff row and one schema row. -/
def pruneWitnessDB : DB :=
  ⟨true, true, true, true, false,
   [⟨"v1", "r1", "bgp", "x", "t1"⟩, ⟨"v2", "r1", "bgp", "y", "t2"⟩],
   [⟨"v1", "r1", "bgp_peer", Json.str "k", "a", "t1"⟩,
    ⟨"v2", "r1", "bgp_peer", Json.str "k", "b", "t2"⟩],
   [⟨"v1", "v2", "r1", "bgp_peer", Json.str "k", "changed", some "a", some "b", "t3"⟩],
   [⟨"v1", "sha1", "t1", "etl", "schema.sql"⟩],
   [], [], []⟩

/-- Witness for C6 at a concrete database with `keep = 1`. -/
theorem prune_retention_witness :
    (prune pruneWitnessDB 1 false).1.normalizedState
      = pruneWitnessDB.normalizedState.filter
          (fun r => !(decide (r.version ∈ pruneDelList pruneWitnessDB 1))) :=
  (prune_retention pruneWitnessDB 1 rfl rfl rfl rfl).2.2.2.1

-- ---------------------------------------------------------------------------
-- The consistency verifier (main --verify, lines 836-894) and claim C7
-- ---------------------------------------------------------------------------

/-- `SELECT COUNT(*) FROM raw_state WHERE version=? AND kind=?`. -/
def countRawKind (db : DB) (ver kind : String) : Nat :=
  (db.rawState.filter (fun r => r.version == ver && r.kind == kind)).length

/-- `SELECT COUNT(*) FROM normalized_state WHERE version=? AND kind=?`. -/
def countNormKind (db : DB) (ver kind : String) : Nat :=
  (db.normalizedState.filter (fun r => r.version == ver && r.kind == kind)).length

/-- `SELECT COUNT(*) FROM normalized_state WHERE version=? AND (k IS NULL OR k='')`. -/
def countBadKeys (db : DB) (ver : String) : Nat :=
  (db.normalizedState.filter (fun r => r.version == ver && badKeyB r.k)).length

/-- `SELECT COUNT(*) FROM routing_summary WHERE host='unknown'`. -/
def countUnknownSummary (db : DB) : Nat :=
  (db.routingSummary.filter (fun s => s.host == "unknown")).length

/-- The diagnostics dict of verify mode: always populated with every
metric, whether the verification passes or fails (`unknownHosts` is absent
exactly when `routing_summary` does not exist). -/
structure VerifyDetails where
  version : String
  rawBgp : Nat
  rawOspf : Nat
  normBgp : Nat
  normOspf : Nat
  badKeys : Nat
  unknownHosts : Option Nat
deriving DecidableEq

/-- The check phase of verify mode (lines 864-881), after the target
version is resolved and `raw_state`/`normalized_state` were found to
exist: compute the five counts (plus the sentinel count when
`routing_summary` exists) and pass iff at least one raw fact and one
normalized fact exist, no normalized key is NULL or empty, and no
`routing_summary` row uses the `'unknown'` host. -/
def verifyVersion (db : DB) (ver : String) : Bool × VerifyDetails :=
  let rawBgp := countRawKind db ver "bgp"
  let rawOspf := countRawKind db ver "ospf"
  let normBgp := countNormKind db ver "bgp_peer"
  let normOspf := countNormKind db ver "ospf_neighbor"
  let badKeys := countBadKeys db ver
  let unknownHosts := if db.hasRoutingSummary then some (countUnknownSummary db) else none
  let passed := decide (1 ≤ rawBgp + rawOspf) && decide (1 ≤ normBgp + normOspf)
    && decide (badKeys = 0)
    && (match unknownHosts with
        | some u => decide (u = 0)
        | none => true)
  (passed, ⟨ver, rawBgp, rawOspf, normBgp, normOspf, badKeys, unknownHosts⟩)

/-- C7: the verifier passes exactly when all four checks hold (the
sentinel check applying only when `routing_summary` exists), and the
reported diagnostics always carry every metric, independent of the
outcome. -/
theorem verify_pass_iff (db : DB) (ver : String) :
    ((verifyVersion db ver).1 = true ↔
      (1 ≤ countRawKind db ver "bgp" + countRawKind db ver "ospf"
        ∧ 1 ≤ countNormKind db ver "bgp_peer" + countNormKind db ver "ospf_neighbor"
        ∧ countBadKeys db ver = 0
        ∧ (db.hasRoutingSummary = true → countUnknownSummary db = 0)))
    ∧ (verifyVersion db ver).2
        = ⟨ver, countRawKind db ver "bgp", countRawKind db ver "ospf",
           countNormKind db ver "bgp_peer", countNormKind db ver "ospf_neighbor",
           countBadKeys db ver,
           if db.hasRoutingSummary then some (countUnknownSummary db) else none⟩ := by
  constructor
  · show (decide _ && decide _ && decide _ && _) = true ↔ _
    by_cases hrs : db.hasRoutingSummary = true
    · simp [hrs, Bool.and_eq_true, decide_eq_true_eq, and_assoc]
    · have hrs2 : db.hasRoutingSummary = false := by
        cases h : db.hasRoutingSummary
        · rfl
        · exact absurd h hrs
      simp [hrs2, Bool.and_eq_true, decide_eq_true_eq, and_assoc]
  · rfl
